import Mathlib

/-!
Verification of the sd-bus credential-set core (`src/libsystemd/sd-bus/bus-creds.c`).

The C code is shallowly embedded: the credential object `sd_bus_creds` becomes a
Lean structure, the OS query collaborators (procfs reads, cgroup helpers, audit
lookups) become an explicit environment of fallible functions, and every embedded
function threads the credential state explicitly.  Machine integers are modelled
as `Nat` (`uint64_t` masks, with 64-bit complement made explicit) and `Int`
(`pid_t`).  Allocation never fails in the model; `-ENOMEM` paths are unreachable
and all other control flow is reproduced line by line from the source.
-/

/-- Errno values used by bus-creds.c and its collaborators. -/
inductive Errno where
  | EINVAL
  | ENODATA
  | ESRCH
  | EIO
  | ENOMEM
  | EPERM
  | EACCES
  | ENOENT
  | ENOTSUP
  | ENXIO
  | EBADF
  deriving DecidableEq

deriving instance DecidableEq for Except

/-- Complement of a 64-bit word, as used by `mask & ~c->mask` on `uint64_t`. -/
def not64 (x : Nat) : Nat := 18446744073709551615 ^^^ x

/- Credential mask bits.  Modelled from the spec: the enumeration lives in the
   header `bus-creds.h` / `sd-bus.h`, which is not part of `src/`; the claims
   depend only on the bits being distinct single bits below bit 32, with the
   `AUGMENT` flag at bit 63. -/

def SD_BUS_CREDS_PID : Nat := 1 <<< 0
def SD_BUS_CREDS_PID_STARTTIME : Nat := 1 <<< 1
def SD_BUS_CREDS_TID : Nat := 1 <<< 2
def SD_BUS_CREDS_UID : Nat := 1 <<< 3
def SD_BUS_CREDS_EUID : Nat := 1 <<< 4
def SD_BUS_CREDS_SUID : Nat := 1 <<< 5
def SD_BUS_CREDS_FSUID : Nat := 1 <<< 6
def SD_BUS_CREDS_GID : Nat := 1 <<< 7
def SD_BUS_CREDS_EGID : Nat := 1 <<< 8
def SD_BUS_CREDS_SGID : Nat := 1 <<< 9
def SD_BUS_CREDS_FSGID : Nat := 1 <<< 10
def SD_BUS_CREDS_SUPPLEMENTARY_GIDS : Nat := 1 <<< 11
def SD_BUS_CREDS_COMM : Nat := 1 <<< 12
def SD_BUS_CREDS_TID_COMM : Nat := 1 <<< 13
def SD_BUS_CREDS_EXE : Nat := 1 <<< 14
def SD_BUS_CREDS_CMDLINE : Nat := 1 <<< 15
def SD_BUS_CREDS_CGROUP : Nat := 1 <<< 16
def SD_BUS_CREDS_UNIT : Nat := 1 <<< 17
def SD_BUS_CREDS_USER_UNIT : Nat := 1 <<< 18
def SD_BUS_CREDS_SLICE : Nat := 1 <<< 19
def SD_BUS_CREDS_SESSION : Nat := 1 <<< 20
def SD_BUS_CREDS_OWNER_UID : Nat := 1 <<< 21
def SD_BUS_CREDS_EFFECTIVE_CAPS : Nat := 1 <<< 22
def SD_BUS_CREDS_PERMITTED_CAPS : Nat := 1 <<< 23
def SD_BUS_CREDS_INHERITABLE_CAPS : Nat := 1 <<< 24
def SD_BUS_CREDS_BOUNDING_CAPS : Nat := 1 <<< 25
def SD_BUS_CREDS_SELINUX_CONTEXT : Nat := 1 <<< 26
def SD_BUS_CREDS_AUDIT_SESSION_ID : Nat := 1 <<< 27
def SD_BUS_CREDS_AUDIT_LOGIN_UID : Nat := 1 <<< 28
def SD_BUS_CREDS_UNIQUE_NAME : Nat := 1 <<< 29
def SD_BUS_CREDS_WELL_KNOWN_NAMES : Nat := 1 <<< 30
def SD_BUS_CREDS_DESCRIPTION : Nat := 1 <<< 31
def SD_BUS_CREDS_AUGMENT : Nat := 1 <<< 63

def CAP_OFFSET_INHERITABLE : Nat := 0
def CAP_OFFSET_PERMITTED : Nat := 1
def CAP_OFFSET_EFFECTIVE : Nat := 2
def CAP_OFFSET_BOUNDING : Nat := 3

/-- All four real/effective/saved/filesystem user-id bits. -/
def uidFieldBits : Nat :=
  SD_BUS_CREDS_UID ||| SD_BUS_CREDS_EUID ||| SD_BUS_CREDS_SUID ||| SD_BUS_CREDS_FSUID

/-- All four group-id bits. -/
def gidFieldBits : Nat :=
  SD_BUS_CREDS_GID ||| SD_BUS_CREDS_EGID ||| SD_BUS_CREDS_SGID ||| SD_BUS_CREDS_FSGID

/-- The four capability-category bits. -/
def capsFieldBits : Nat :=
  SD_BUS_CREDS_EFFECTIVE_CAPS ||| SD_BUS_CREDS_INHERITABLE_CAPS |||
  SD_BUS_CREDS_PERMITTED_CAPS ||| SD_BUS_CREDS_BOUNDING_CAPS

/-- Fields read from the `/proc/PID/status` record. -/
def statusFieldBits : Nat :=
  uidFieldBits ||| gidFieldBits ||| SD_BUS_CREDS_SUPPLEMENTARY_GIDS ||| capsFieldBits

/-- The hierarchical-path (cgroup) field family. -/
def cgroupFieldBits : Nat :=
  SD_BUS_CREDS_CGROUP ||| SD_BUS_CREDS_UNIT ||| SD_BUS_CREDS_USER_UNIT |||
  SD_BUS_CREDS_SLICE ||| SD_BUS_CREDS_SESSION ||| SD_BUS_CREDS_OWNER_UID

/-- Every field bit (bits 0..31), without the `AUGMENT` flag. -/
def allFieldBits : Nat := (1 <<< 32) - 1

/-- The credential set, `struct sd_bus_creds`.  Pointer-valued fields become
`Option`; `NULL` is `none`.  `n_supplementary_gids` is the length of the list.
`uid_t`/`gid_t` values are 32-bit, hence stored reduced modulo `2^32`. -/
structure SdBusCreds where
  allocated : Bool := false
  n_ref : Nat := 0
  mask : Nat := 0
  uid : Nat := 0
  euid : Nat := 0
  suid : Nat := 0
  fsuid : Nat := 0
  gid : Nat := 0
  egid : Nat := 0
  sgid : Nat := 0
  fsgid : Nat := 0
  supplementary_gids : List Nat := []
  pid : Int := 0
  tid : Int := 0
  pid_starttime : Nat := 0
  comm : Option String := none
  tid_comm : Option String := none
  exe : Option String := none
  cmdline : Option (List Nat) := none
  cmdline_size : Nat := 0
  cmdline_array : Option (List String) := none
  cgroup : Option String := none
  cgroup_root : Option String := none
  capability : Option (List Nat) := none
  capability_size : Nat := 0
  label : Option String := none
  audit_session_id : Nat := 0
  audit_login_uid : Nat := 0
  unique_name : Option String := none
  well_known_names : List String := []
  description : Option String := none
  unit : Option String := none
  user_unit : Option String := none
  slice : Option String := none
  session : Option String := none
  unescaped_description : Option String := none
  deriving DecidableEq

/-- `bus_creds_new`: a zero-filled, heap-owned credential set with refcount 1. -/
def bus_creds_new : SdBusCreds := { allocated := true, n_ref := 1 }

/-- `sd_bus_creds_ref` on an owned set increments the refcount; the embedded
(view) case forwards to the carrier message and leaves the set itself as is. -/
def sd_bus_creds_ref (c : SdBusCreds) : SdBusCreds :=
  if c.allocated then { c with n_ref := c.n_ref + 1 } else c

/-- `sd_bus_creds_get_mask`. -/
def sd_bus_creds_get_mask (c : SdBusCreds) : Nat := c.mask

/-- `sd_bus_creds_get_uid`: `-ENODATA` unless the UID bit is set. -/
def sd_bus_creds_get_uid (c : SdBusCreds) : Except Errno Nat :=
  if c.mask &&& SD_BUS_CREDS_UID = 0 then .error Errno.ENODATA
  else .ok c.uid

/-- `sd_bus_creds_get_euid`. -/
def sd_bus_creds_get_euid (c : SdBusCreds) : Except Errno Nat :=
  if c.mask &&& SD_BUS_CREDS_EUID = 0 then .error Errno.ENODATA
  else .ok c.euid

/-- `sd_bus_creds_get_gid`.  Note: the source tests `SD_BUS_CREDS_UID` here,
not `SD_BUS_CREDS_GID` (bus-creds.c line 211); the embedding reproduces that. -/
def sd_bus_creds_get_gid (c : SdBusCreds) : Except Errno Nat :=
  if c.mask &&& SD_BUS_CREDS_UID = 0 then .error Errno.ENODATA
  else .ok c.gid

/-- `sd_bus_creds_get_egid`. -/
def sd_bus_creds_get_egid (c : SdBusCreds) : Except Errno Nat :=
  if c.mask &&& SD_BUS_CREDS_EGID = 0 then .error Errno.ENODATA
  else .ok c.egid

/-- `sd_bus_creds_get_pid`. -/
def sd_bus_creds_get_pid (c : SdBusCreds) : Except Errno Int :=
  if c.mask &&& SD_BUS_CREDS_PID = 0 then .error Errno.ENODATA
  else .ok c.pid

/-- `sd_bus_creds_get_tid`. -/
def sd_bus_creds_get_tid (c : SdBusCreds) : Except Errno Int :=
  if c.mask &&& SD_BUS_CREDS_TID = 0 then .error Errno.ENODATA
  else .ok c.tid

/-- Characters of systemd's `WHITESPACE` constant (space, tab, newline, CR). -/
def isWS (ch : Char) : Bool := ch == ' ' || ch == '\t' || ch == '\n' || ch == '\r'

/-- `unhexchar` from util.c (a collaborator outside this file): hex digit value. -/
def unhexchar (ch : Char) : Option Nat :=
  if '0' ≤ ch ∧ ch ≤ '9' then some (ch.toNat - '0'.toNat)
  else if 'a' ≤ ch ∧ ch ≤ 'f' then some (ch.toNat - 'a'.toNat + 10)
  else if 'A' ≤ ch ∧ ch ≤ 'F' then some (ch.toNat - 'A'.toNat + 10)
  else none

/-- `has_cap`: byte `capability / 8`, bit `capability % 8` of the sub-vector at
`offset`, where each category occupies `capability_size / 4` bytes; capability
numbers at or beyond the stored width yield 0. -/
def has_cap (c : SdBusCreds) (offset : Nat) (capability : Nat) : Nat :=
  let sz := c.capability_size / 4
  if sz * 8 ≤ capability then 0
  else if ((c.capability.getD []).getD (offset * sz + capability / 8) 0) &&&
          (1 <<< (capability % 8)) = 0 then 0 else 1

/-- `sd_bus_creds_has_effective_cap`. -/
def sd_bus_creds_has_effective_cap (c : SdBusCreds) (capability : Nat) : Except Errno Nat :=
  if c.mask &&& SD_BUS_CREDS_EFFECTIVE_CAPS = 0 then .error Errno.ENODATA
  else .ok (has_cap c CAP_OFFSET_EFFECTIVE capability)

/-- `sd_bus_creds_has_permitted_cap`. -/
def sd_bus_creds_has_permitted_cap (c : SdBusCreds) (capability : Nat) : Except Errno Nat :=
  if c.mask &&& SD_BUS_CREDS_PERMITTED_CAPS = 0 then .error Errno.ENODATA
  else .ok (has_cap c CAP_OFFSET_PERMITTED capability)

/-- `sd_bus_creds_has_inheritable_cap`. -/
def sd_bus_creds_has_inheritable_cap (c : SdBusCreds) (capability : Nat) : Except Errno Nat :=
  if c.mask &&& SD_BUS_CREDS_INHERITABLE_CAPS = 0 then .error Errno.ENODATA
  else .ok (has_cap c CAP_OFFSET_INHERITABLE capability)

/-- `sd_bus_creds_has_bounding_cap`. -/
def sd_bus_creds_has_bounding_cap (c : SdBusCreds) (capability : Nat) : Except Errno Nat :=
  if c.mask &&& SD_BUS_CREDS_BOUNDING_CAPS = 0 then .error Errno.ENODATA
  else .ok (has_cap c CAP_OFFSET_BOUNDING capability)

/-- The byte-writing loop of `parse_caps`: pair `i` decodes to one byte stored
at index `offset * sz + (sz - i - 1)`; `rem = sz - i` pairs remain.  A failed
hex digit aborts with `-EINVAL`, keeping the bytes already written. -/
def parseCapsFrom (q : List Char) (sz offset : Nat) :
    Nat → Nat → List Nat → Option Errno × List Nat
  | _, 0, v => (none, v)
  | i, rem + 1, v =>
    match unhexchar (q.getD (i * 2) ' '), unhexchar (q.getD (i * 2 + 1) ' ') with
    | some x, some y =>
        parseCapsFrom q sz offset (i + 1) rem
          (v.set (offset * sz + (sz - i - 1)) ((x <<< 4) ||| y))
    | _, _ => (some Errno.EINVAL, v)

/-- `parse_caps`: skip leading whitespace, require even length, allocate the
4-category vector on first use (sized by this string), then decode hex pairs
into the category's sub-vector in reversed order. -/
def parse_caps (c : SdBusCreds) (offset : Nat) (p : List Char) : Option Errno × SdBusCreds :=
  let q := p.dropWhile isWS
  if q.length % 2 ≠ 0 then (some Errno.EINVAL, c)
  else
    let sz := q.length / 2
    let c :=
      match c.capability with
      | some _ => c
      | none => { c with capability := some (List.replicate (sz * 4) 0),
                         capability_size := sz * 4 }
    match parseCapsFrom q sz offset 0 sz (c.capability.getD []) with
    | (some e, v) => (some e, { c with capability := some v })
    | (none, v) => (none, { c with capability := some v })

/-- The cgroup-path collaborators (cgroup-util.c, outside this file), consumed
as opaque fallible functions exactly as the source calls them. -/
structure CgEnv where
  shift : String → Option String → Except Errno String
  pathUnit : String → Except Errno String
  pathUserUnit : String → Except Errno String
  pathSlice : String → Except Errno String
  pathSession : String → Except Errno String
  pathOwnerUid : String → Except Errno Nat

/-- `sd_bus_creds_get_unit`, instrumented with the number of collaborator calls
made (third component) so that memoization is observable. -/
def sd_bus_creds_get_unit (e : CgEnv) (c : SdBusCreds) :
    Except Errno String × SdBusCreds × Nat :=
  if c.mask &&& SD_BUS_CREDS_UNIT = 0 then (.error Errno.ENODATA, c, 0)
  else
    match c.unit with
    | some u => (.ok u, c, 0)
    | none =>
      match e.shift (c.cgroup.getD "") c.cgroup_root with
      | .error r => (.error r, c, 1)
      | .ok shifted =>
        match e.pathUnit shifted with
        | .error r => (.error r, c, 2)
        | .ok u => (.ok u, { c with unit := some u }, 2)

/-- `sd_bus_creds_get_user_unit`, instrumented like `sd_bus_creds_get_unit`. -/
def sd_bus_creds_get_user_unit (e : CgEnv) (c : SdBusCreds) :
    Except Errno String × SdBusCreds × Nat :=
  if c.mask &&& SD_BUS_CREDS_USER_UNIT = 0 then (.error Errno.ENODATA, c, 0)
  else
    match c.user_unit with
    | some u => (.ok u, c, 0)
    | none =>
      match e.shift (c.cgroup.getD "") c.cgroup_root with
      | .error r => (.error r, c, 1)
      | .ok shifted =>
        match e.pathUserUnit shifted with
        | .error r => (.error r, c, 2)
        | .ok u => (.ok u, { c with user_unit := some u }, 2)

/-- `sd_bus_creds_get_slice`, instrumented like `sd_bus_creds_get_unit`. -/
def sd_bus_creds_get_slice (e : CgEnv) (c : SdBusCreds) :
    Except Errno String × SdBusCreds × Nat :=
  if c.mask &&& SD_BUS_CREDS_SLICE = 0 then (.error Errno.ENODATA, c, 0)
  else
    match c.slice with
    | some u => (.ok u, c, 0)
    | none =>
      match e.shift (c.cgroup.getD "") c.cgroup_root with
      | .error r => (.error r, c, 1)
      | .ok shifted =>
        match e.pathSlice shifted with
        | .error r => (.error r, c, 2)
        | .ok u => (.ok u, { c with slice := some u }, 2)

/-- `sd_bus_creds_get_session`, instrumented like `sd_bus_creds_get_unit`. -/
def sd_bus_creds_get_session (e : CgEnv) (c : SdBusCreds) :
    Except Errno String × SdBusCreds × Nat :=
  if c.mask &&& SD_BUS_CREDS_SESSION = 0 then (.error Errno.ENODATA, c, 0)
  else
    match c.session with
    | some u => (.ok u, c, 0)
    | none =>
      match e.shift (c.cgroup.getD "") c.cgroup_root with
      | .error r => (.error r, c, 1)
      | .ok shifted =>
        match e.pathSession shifted with
        | .error r => (.error r, c, 2)
        | .ok u => (.ok u, { c with session := some u }, 2)

/-- `sd_bus_creds_get_owner_uid`: shifts the raw path and derives the owner uid
on every call; the source keeps no cache field for this getter. -/
def sd_bus_creds_get_owner_uid (e : CgEnv) (c : SdBusCreds) :
    Except Errno Nat × SdBusCreds × Nat :=
  if c.mask &&& SD_BUS_CREDS_OWNER_UID = 0 then (.error Errno.ENODATA, c, 0)
  else
    match e.shift (c.cgroup.getD "") c.cgroup_root with
    | .error r => (.error r, c, 1)
    | .ok shifted => (e.pathOwnerUid shifted, c, 2)

/-- `strv_parse_nulstr` (strv.c, outside this file).  Modelled from the spec:
split the raw NUL-separated blob of known byte length into an ordered sequence
of argument strings. -/
def strv_parse_nulstr (bytes : List Nat) : List String :=
  (bytes.splitOn 0).map fun w => String.mk (w.map Char.ofNat)

/-- `sd_bus_creds_get_cmdline`: `-ENODATA` without the bit, `-ESRCH` if the bit
is set but the blob is `NULL`, else split the blob once and cache the array. -/
def sd_bus_creds_get_cmdline (c : SdBusCreds) :
    Except Errno (List String) × SdBusCreds :=
  if c.mask &&& SD_BUS_CREDS_CMDLINE = 0 then (.error Errno.ENODATA, c)
  else
    match c.cmdline with
    | none => (.error Errno.ESRCH, c)
    | some bytes =>
      match c.cmdline_array with
      | some a => (.ok a, c)
      | none =>
        let a := strv_parse_nulstr bytes
        (.ok a, { c with cmdline_array := some a })

/-- The OS query collaborators consumed by `bus_creds_add_more` for one target
process: the textual status record (as its list of lines), and the remaining
fallible reads, each returning raw data or an errno. -/
structure ProcEnv where
  status : Except Errno (List String)
  starttime : Except Errno Nat
  clk_tck : Nat
  label : Except Errno String
  comm : Except Errno String
  exe : Except Errno String
  cmdline : Except Errno (List Nat)
  tid_comm : Except Errno String
  cgroup : Except Errno String
  cgroup_root : Except Errno String
  audit_session : Except Errno Nat
  audit_loginuid : Except Errno Nat
  deriving DecidableEq

/-- Sequencing of augmentation steps: a hard failure short-circuits, keeping the
partially updated credential state. -/
def andThen (r : Option Errno × SdBusCreds)
    (f : SdBusCreds → Option Errno × SdBusCreds) : Option Errno × SdBusCreds :=
  match r with
  | (some e, c) => (some e, c)
  | (none, c) => f c

/-- One decimal digit. -/
def isDigitC (ch : Char) : Bool := '0' ≤ ch ∧ ch ≤ '9'

/-- Value of a decimal digit string. -/
def natOfDigits (ds : List Char) : Nat :=
  ds.foldl (fun a ch => a * 10 + (ch.toNat - 48)) 0

/-- One `%lu` conversion: a maximal nonempty digit run and the rest. -/
def parseNum (p : List Char) : Option (Nat × List Char) :=
  let ds := p.takeWhile isDigitC
  if ds.isEmpty then none else some (natOfDigits ds, p.dropWhile isDigitC)

/-- `sscanf(p, "%lu %lu %lu %lu") == 4`: four whitespace-separated numbers. -/
def scan4 (p : List Char) : Option (Nat × Nat × Nat × Nat) :=
  match parseNum (p.dropWhile isWS) with
  | none => none
  | some (a, p1) =>
    match parseNum (p1.dropWhile isWS) with
    | none => none
    | some (b, p2) =>
      match parseNum (p2.dropWhile isWS) with
      | none => none
      | some (d, p3) =>
        match parseNum (p3.dropWhile isWS) with
        | none => none
        | some (e, _) => some (a, b, d, e)

/-- `startswith`: the suffix after a literal key, or `none`. -/
def startswithL : List Char → List Char → Option (List Char)
  | l, [] => some l
  | [], _ :: _ => none
  | a :: l, b :: k => if a = b then startswithL l k else none

def uidKey : List Char := ['U', 'i', 'd', ':']
def gidKey : List Char := ['G', 'i', 'd', ':']
def groupsKey : List Char := ['G', 'r', 'o', 'u', 'p', 's', ':']
def capEffKey : List Char := ['C', 'a', 'p', 'E', 'f', 'f', ':']
def capPrmKey : List Char := ['C', 'a', 'p', 'P', 'r', 'm', ':']
def capInhKey : List Char := ['C', 'a', 'p', 'I', 'n', 'h', ':']
def capBndKey : List Char := ['C', 'a', 'p', 'B', 'n', 'd', ':']

/-- The `Groups:` token loop: skip whitespace, stop at end of line, read one
`%lu` (a malformed token is `-EIO`), append the gid, repeat.  Each iteration
consumes at least one character, so fuel `length + 1` never runs out. -/
def groupsLoop : Nat → List Char → List Nat → Option Errno × List Nat
  | 0, _, acc => (none, acc)
  | fuel + 1, p, acc =>
    let q := p.dropWhile isWS
    match q with
    | [] => (none, acc)
    | _ =>
      match parseNum q with
      | none => (some Errno.EIO, acc)
      | some (g, rest) => groupsLoop fuel rest (acc ++ [g % 4294967296])

/-- One capability line of the status record (the block the source repeats for
`CapEff:`, `CapPrm:`, `CapInh:`, `CapBnd:`): parse the hex string into the
category at `offset` and publish bit `B` on success. -/
def capsLine (c : SdBusCreds) (offset B : Nat) (p : List Char) :
    Option Errno × SdBusCreds :=
  match parse_caps c offset p with
  | (some e, c1) => (some e, c1)
  | (none, c1) => (none, { c1 with mask := c1.mask ||| B })

/-- One line of the status record, matched against the recognized keys in
source order (`Uid:`, `Gid:`, `Groups:`, `CapEff:`, `CapPrm:`, `CapInh:`,
`CapBnd:`), each guarded by the still-missing bits captured at entry. -/
def processLine (missing : Nat) (c : SdBusCreds) (line : String) :
    Option Errno × SdBusCreds :=
  let chars := line.toList
  match (if missing &&& uidFieldBits ≠ 0 then startswithL chars uidKey else none) with
  | some p =>
    match scan4 (p.dropWhile isWS) with
    | none => (some Errno.EIO, c)
    | some (a, b, d, e) =>
      (none, { c with uid := a % 4294967296, euid := b % 4294967296,
                      suid := d % 4294967296, fsuid := e % 4294967296,
                      mask := c.mask ||| (missing &&& uidFieldBits) })
  | none =>
  match (if missing &&& gidFieldBits ≠ 0 then startswithL chars gidKey else none) with
  | some p =>
    match scan4 (p.dropWhile isWS) with
    | none => (some Errno.EIO, c)
    | some (a, b, d, e) =>
      (none, { c with gid := a % 4294967296, egid := b % 4294967296,
                      sgid := d % 4294967296, fsgid := e % 4294967296,
                      mask := c.mask ||| (missing &&& gidFieldBits) })
  | none =>
  match (if missing &&& SD_BUS_CREDS_SUPPLEMENTARY_GIDS ≠ 0 then
           startswithL chars groupsKey else none) with
  | some p =>
    match groupsLoop (p.length + 1) p [] with
    | (some e, gs) =>
      (some e, { c with supplementary_gids := c.supplementary_gids ++ gs })
    | (none, gs) =>
      (none, { c with supplementary_gids := c.supplementary_gids ++ gs,
                      mask := c.mask ||| SD_BUS_CREDS_SUPPLEMENTARY_GIDS })
  | none =>
  match (if missing &&& SD_BUS_CREDS_EFFECTIVE_CAPS ≠ 0 then
           startswithL chars capEffKey else none) with
  | some p => capsLine c CAP_OFFSET_EFFECTIVE SD_BUS_CREDS_EFFECTIVE_CAPS p
  | none =>
  match (if missing &&& SD_BUS_CREDS_PERMITTED_CAPS ≠ 0 then
           startswithL chars capPrmKey else none) with
  | some p => capsLine c CAP_OFFSET_PERMITTED SD_BUS_CREDS_PERMITTED_CAPS p
  | none =>
  match (if missing &&& SD_BUS_CREDS_INHERITABLE_CAPS ≠ 0 then
           startswithL chars capInhKey else none) with
  | some p => capsLine c CAP_OFFSET_INHERITABLE SD_BUS_CREDS_INHERITABLE_CAPS p
  | none =>
  match (if missing &&& SD_BUS_CREDS_BOUNDING_CAPS ≠ 0 then
           startswithL chars capBndKey else none) with
  | some p => capsLine c CAP_OFFSET_BOUNDING SD_BUS_CREDS_BOUNDING_CAPS p
  | none => (none, c)

/-- The `FOREACH_LINE` scan: process lines in order, aborting on the first hard
failure while keeping the state built so far. -/
def processLines (missing : Nat) : List String → SdBusCreds → Option Errno × SdBusCreds
  | [], c => (none, c)
  | l :: ls, c =>
    match processLine missing c l with
    | (some e, c1) => (some e, c1)
    | (none, c1) => processLines missing ls c1

/-- Step 4 of augmentation: open and scan `/proc/PID/status` when any of the
uid/gid/supplementary-gid/capability bits are missing.  `ENOENT` on open is
`-ESRCH`; `EPERM`/`EACCES` skip the whole record; anything else is hard. -/
def statusStep (missing : Nat) (env : ProcEnv) (c : SdBusCreds) :
    Option Errno × SdBusCreds :=
  if missing &&& statusFieldBits = 0 then (none, c)
  else
    match env.status with
    | .error e =>
      if e = Errno.ENOENT then (some Errno.ESRCH, c)
      else if e ≠ Errno.EPERM ∧ e ≠ Errno.EACCES then (some e, c)
      else (none, c)
    | .ok lines => processLines missing lines c

/-- Step 5: start time, converted from clock ticks to microseconds. -/
def starttimeStep (missing : Nat) (env : ProcEnv) (c : SdBusCreds) :
    Option Errno × SdBusCreds :=
  if missing &&& SD_BUS_CREDS_PID_STARTTIME = 0 then (none, c)
  else
    match env.starttime with
    | .error e =>
      if e ≠ Errno.EPERM ∧ e ≠ Errno.EACCES then (some e, c) else (none, c)
    | .ok st =>
      (none, { c with pid_starttime := st * 1000000 / env.clk_tck,
                      mask := c.mask ||| SD_BUS_CREDS_PID_STARTTIME })

/-- Step 6a: security label; `ENOENT`/`EINVAL`/`EPERM`/`EACCES` are skips. -/
def labelStep (missing : Nat) (env : ProcEnv) (c : SdBusCreds) :
    Option Errno × SdBusCreds :=
  if missing &&& SD_BUS_CREDS_SELINUX_CONTEXT = 0 then (none, c)
  else
    match env.label with
    | .error e =>
      if e ≠ Errno.ENOENT ∧ e ≠ Errno.EINVAL ∧ e ≠ Errno.EPERM ∧ e ≠ Errno.EACCES
      then (some e, c) else (none, c)
    | .ok s =>
      (none, { c with label := some s, mask := c.mask ||| SD_BUS_CREDS_SELINUX_CONTEXT })

/-- Step 6b: process name; only `EPERM`/`EACCES` are skips. -/
def commStep (missing : Nat) (env : ProcEnv) (c : SdBusCreds) :
    Option Errno × SdBusCreds :=
  if missing &&& SD_BUS_CREDS_COMM = 0 then (none, c)
  else
    match env.comm with
    | .error e =>
      if e ≠ Errno.EPERM ∧ e ≠ Errno.EACCES then (some e, c) else (none, c)
    | .ok s => (none, { c with comm := some s, mask := c.mask ||| SD_BUS_CREDS_COMM })

/-- Step 6c: executable path; only `EPERM`/`EACCES` are skips. -/
def exeStep (missing : Nat) (env : ProcEnv) (c : SdBusCreds) :
    Option Errno × SdBusCreds :=
  if missing &&& SD_BUS_CREDS_EXE = 0 then (none, c)
  else
    match env.exe with
    | .error e =>
      if e ≠ Errno.EPERM ∧ e ≠ Errno.EACCES then (some e, c) else (none, c)
    | .ok s => (none, { c with exe := some s, mask := c.mask ||| SD_BUS_CREDS_EXE })

/-- Step 6d: command-line blob.  `ENOENT` means the process vanished
(`-ESRCH`); a zero-length blob is freed and the bit stays unset. -/
def cmdlineStep (missing : Nat) (env : ProcEnv) (c : SdBusCreds) :
    Option Errno × SdBusCreds :=
  if missing &&& SD_BUS_CREDS_CMDLINE = 0 then (none, c)
  else
    match env.cmdline with
    | .error e =>
      if e = Errno.ENOENT then (some Errno.ESRCH, c)
      else if e ≠ Errno.EPERM ∧ e ≠ Errno.EACCES then (some e, c)
      else (none, c)
    | .ok bytes =>
      if bytes.length = 0 then
        (none, { c with cmdline := none, cmdline_size := 0 })
      else
        (none, { c with cmdline := some bytes, cmdline_size := bytes.length,
                        mask := c.mask ||| SD_BUS_CREDS_CMDLINE })

/-- Step 6e: per-thread name, only attempted with a positive thread id;
`ENOENT` is `-ESRCH`. -/
def tidCommStep (missing : Nat) (tid : Int) (env : ProcEnv) (c : SdBusCreds) :
    Option Errno × SdBusCreds :=
  if tid > 0 ∧ missing &&& SD_BUS_CREDS_TID_COMM ≠ 0 then
    match env.tid_comm with
    | .error e =>
      if e = Errno.ENOENT then (some Errno.ESRCH, c)
      else if e ≠ Errno.EPERM ∧ e ≠ Errno.EACCES then (some e, c)
      else (none, c)
    | .ok s => (none, { c with tid_comm := some s, mask := c.mask ||| SD_BUS_CREDS_TID_COMM })
  else (none, c)

/-- Step 7: the cgroup family.  The raw path fetch may be skipped on
`EPERM`/`EACCES`; on success the root fetch is unconditional and hard, and
every requested family bit is published at once. -/
def cgroupStep (missing : Nat) (env : ProcEnv) (c : SdBusCreds) :
    Option Errno × SdBusCreds :=
  if missing &&& cgroupFieldBits = 0 then (none, c)
  else
    match env.cgroup with
    | .error e =>
      if e ≠ Errno.EPERM ∧ e ≠ Errno.EACCES then (some e, c) else (none, c)
    | .ok path =>
      let c1 := { c with cgroup := some path }
      match env.cgroup_root with
      | .error e => (some e, c1)
      | .ok root =>
        (none, { c1 with cgroup_root := some root,
                         mask := c1.mask ||| (missing &&& cgroupFieldBits) })

/-- Step 8a: audit session id; `ENOTSUP`/`ENXIO`/`ENOENT`/`EPERM`/`EACCES`
are skips. -/
def auditSessionStep (missing : Nat) (env : ProcEnv) (c : SdBusCreds) :
    Option Errno × SdBusCreds :=
  if missing &&& SD_BUS_CREDS_AUDIT_SESSION_ID = 0 then (none, c)
  else
    match env.audit_session with
    | .error e =>
      if e ≠ Errno.ENOTSUP ∧ e ≠ Errno.ENXIO ∧ e ≠ Errno.ENOENT ∧
         e ≠ Errno.EPERM ∧ e ≠ Errno.EACCES
      then (some e, c) else (none, c)
    | .ok v =>
      (none, { c with audit_session_id := v,
                      mask := c.mask ||| SD_BUS_CREDS_AUDIT_SESSION_ID })

/-- Step 8b: audit login uid, with the same skip set. -/
def auditLoginStep (missing : Nat) (env : ProcEnv) (c : SdBusCreds) :
    Option Errno × SdBusCreds :=
  if missing &&& SD_BUS_CREDS_AUDIT_LOGIN_UID = 0 then (none, c)
  else
    match env.audit_loginuid with
    | .error e =>
      if e ≠ Errno.ENOTSUP ∧ e ≠ Errno.ENXIO ∧ e ≠ Errno.ENOENT ∧
         e ≠ Errno.EPERM ∧ e ≠ Errno.EACCES
      then (some e, c) else (none, c)
    | .ok v =>
      (none, { c with audit_login_uid := v,
                      mask := c.mask ||| SD_BUS_CREDS_AUDIT_LOGIN_UID })

/-- Steps 5 through 8 of augmentation, applied after the status-record step. -/
def augmentRest (missing : Nat) (tid1 : Int) (env : ProcEnv)
    (r : Option Errno × SdBusCreds) : Option Errno × SdBusCreds :=
  andThen (andThen (andThen (andThen (andThen (andThen (andThen (andThen
    (andThen r (starttimeStep missing env))
    (labelStep missing env)) (commStep missing env)) (exeStep missing env))
    (cmdlineStep missing env)) (tidCommStep missing tid1 env))
    (cgroupStep missing env)) (auditSessionStep missing env))
    (auditLoginStep missing env)

/-- All fetch steps of augmentation, in source order. -/
def augmentSteps (missing : Nat) (tid1 : Int) (env : ProcEnv) (c : SdBusCreds) :
    Option Errno × SdBusCreds :=
  augmentRest missing tid1 env (statusStep missing env c)

/-- Resolution of the effective pid (line 672): fall back to the stored pid. -/
def resolvePid (c : SdBusCreds) (pid : Int) : Int :=
  if pid ≤ 0 ∧ c.mask &&& SD_BUS_CREDS_PID ≠ 0 then c.pid else pid

/-- Resolution of the effective tid (lines 675-676).  The source reads
`c->pid` here, not `c->tid`. -/
def resolveTid (c : SdBusCreds) (tid : Int) : Int :=
  if tid ≤ 0 ∧ c.mask &&& SD_BUS_CREDS_TID ≠ 0 then c.pid else tid

/-- Lines 682-690: store the resolved ids and publish their bits. -/
def publishPidTid (c : SdBusCreds) (pid1 tid1 : Int) : SdBusCreds :=
  let c1 := { c with pid := pid1, mask := c.mask ||| SD_BUS_CREDS_PID }
  if tid1 > 0 then { c1 with tid := tid1, mask := c1.mask ||| SD_BUS_CREDS_TID }
  else c1

/-- `bus_creds_add_more`: compute the missing bits, resolve pid and tid from
the arguments or the stored fields (the source reads `c->pid` in the tid
fallback, line 676), publish the pid/tid bits, then run the fetch steps in
source order. -/
def bus_creds_add_more (c : SdBusCreds) (mask : Nat) (pid tid : Int)
    (env : ProcEnv) : Option Errno × SdBusCreds :=
  if mask &&& SD_BUS_CREDS_AUGMENT = 0 then (none, c)
  else
    let missing := mask &&& not64 c.mask
    if missing = 0 then (none, c)
    else
      if resolvePid c pid ≤ 0 then (none, c)
      else
        augmentSteps missing (resolveTid c tid) env
          (publishPidTid c (resolvePid c pid) (resolveTid c tid))

/-- One copy block of `bus_creds_extend_by_pid`: when any bit of `g` is in both
the original mask and the target mask, copy the block's fields with `upd` and
set `addBits` in the new mask. -/
def copyBlock (c : SdBusCreds) (mask g addBits : Nat)
    (upd : SdBusCreds → SdBusCreds) (n : SdBusCreds) : SdBusCreds :=
  if c.mask &&& mask &&& g ≠ 0 then
    let n1 := upd n
    { n1 with mask := n1.mask ||| addBits }
  else n

/-- The copy phase of `bus_creds_extend_by_pid`: blocks in source order.  Note
the cgroup block publishes `mask & family` while the capability block publishes
`c->mask & mask & family`, exactly as in the source. -/
def credsCopy (c : SdBusCreds) (mask : Nat) : SdBusCreds :=
  let n := bus_creds_new
  let n := copyBlock c mask SD_BUS_CREDS_UID SD_BUS_CREDS_UID
             (fun k => { k with uid := c.uid }) n
  let n := copyBlock c mask SD_BUS_CREDS_EUID SD_BUS_CREDS_EUID
             (fun k => { k with euid := c.euid }) n
  let n := copyBlock c mask SD_BUS_CREDS_SUID SD_BUS_CREDS_SUID
             (fun k => { k with suid := c.suid }) n
  let n := copyBlock c mask SD_BUS_CREDS_FSUID SD_BUS_CREDS_FSUID
             (fun k => { k with fsuid := c.fsuid }) n
  let n := copyBlock c mask SD_BUS_CREDS_GID SD_BUS_CREDS_GID
             (fun k => { k with gid := c.gid }) n
  let n := copyBlock c mask SD_BUS_CREDS_EGID SD_BUS_CREDS_EGID
             (fun k => { k with egid := c.egid }) n
  let n := copyBlock c mask SD_BUS_CREDS_SGID SD_BUS_CREDS_SGID
             (fun k => { k with sgid := c.sgid }) n
  let n := copyBlock c mask SD_BUS_CREDS_FSGID SD_BUS_CREDS_FSGID
             (fun k => { k with fsgid := c.fsgid }) n
  let n := copyBlock c mask SD_BUS_CREDS_SUPPLEMENTARY_GIDS SD_BUS_CREDS_SUPPLEMENTARY_GIDS
             (fun k => { k with supplementary_gids := c.supplementary_gids }) n
  let n := copyBlock c mask SD_BUS_CREDS_PID SD_BUS_CREDS_PID
             (fun k => { k with pid := c.pid }) n
  let n := copyBlock c mask SD_BUS_CREDS_TID SD_BUS_CREDS_TID
             (fun k => { k with tid := c.tid }) n
  let n := copyBlock c mask SD_BUS_CREDS_PID_STARTTIME SD_BUS_CREDS_PID_STARTTIME
             (fun k => { k with pid_starttime := c.pid_starttime }) n
  let n := copyBlock c mask SD_BUS_CREDS_COMM SD_BUS_CREDS_COMM
             (fun k => { k with comm := c.comm }) n
  let n := copyBlock c mask SD_BUS_CREDS_TID_COMM SD_BUS_CREDS_TID_COMM
             (fun k => { k with tid_comm := c.tid_comm }) n
  let n := copyBlock c mask SD_BUS_CREDS_EXE SD_BUS_CREDS_EXE
             (fun k => { k with exe := c.exe }) n
  let n := copyBlock c mask SD_BUS_CREDS_CMDLINE SD_BUS_CREDS_CMDLINE
             (fun k => { k with cmdline := c.cmdline, cmdline_size := c.cmdline_size }) n
  let n := copyBlock c mask cgroupFieldBits (mask &&& cgroupFieldBits)
             (fun k => { k with cgroup := c.cgroup, cgroup_root := c.cgroup_root }) n
  let n := copyBlock c mask capsFieldBits (c.mask &&& mask &&& capsFieldBits)
             (fun k => { k with capability := c.capability,
                                capability_size := c.capability_size }) n
  let n := copyBlock c mask SD_BUS_CREDS_SELINUX_CONTEXT SD_BUS_CREDS_SELINUX_CONTEXT
             (fun k => { k with label := c.label }) n
  let n := copyBlock c mask SD_BUS_CREDS_AUDIT_SESSION_ID SD_BUS_CREDS_AUDIT_SESSION_ID
             (fun k => { k with audit_session_id := c.audit_session_id }) n
  let n := copyBlock c mask SD_BUS_CREDS_AUDIT_LOGIN_UID SD_BUS_CREDS_AUDIT_LOGIN_UID
             (fun k => { k with audit_login_uid := c.audit_login_uid }) n
  let n := copyBlock c mask SD_BUS_CREDS_UNIQUE_NAME SD_BUS_CREDS_UNIQUE_NAME
             (fun k => { k with unique_name := c.unique_name }) n
  let n := copyBlock c mask SD_BUS_CREDS_WELL_KNOWN_NAMES SD_BUS_CREDS_WELL_KNOWN_NAMES
             (fun k => { k with well_known_names := c.well_known_names }) n
  let n := copyBlock c mask SD_BUS_CREDS_DESCRIPTION SD_BUS_CREDS_DESCRIPTION
             (fun k => { k with description := c.description }) n
  n

/-- Result of the extend operation: either the very same object with a
reference acquired, or a freshly allocated one. -/
inductive ExtendResult where
  | same (c : SdBusCreds)
  | fresh (c : SdBusCreds)
  deriving DecidableEq

/-- `bus_creds_extend_by_pid`: fast path when nothing is missing or
augmentation is off; otherwise copy the intersecting fields into a fresh set
and augment it with the pid/tid recovered from the original. -/
def bus_creds_extend_by_pid (c : SdBusCreds) (mask : Nat) (env : ProcEnv) :
    Except Errno ExtendResult :=
  if mask &&& not64 c.mask = 0 ∨ mask &&& SD_BUS_CREDS_AUGMENT = 0 then
    .ok (.same (sd_bus_creds_ref c))
  else
    let n := credsCopy c mask
    match bus_creds_add_more n mask
            (if c.mask &&& SD_BUS_CREDS_PID ≠ 0 then c.pid else 0)
            (if c.mask &&& SD_BUS_CREDS_TID ≠ 0 then c.tid else 0) env with
    | (some e, _) => .error e
    | (none, n1) => .ok (.fresh n1)

/-- Mask of the credential set an extend call produced (0 on failure). -/
def extendMaskOf : Except Errno ExtendResult → Nat
  | .ok (.same n) => n.mask
  | .ok (.fresh n) => n.mask
  | .error _ => 0

/-- Whether an extend call produced a freshly allocated set. -/
def extendIsFresh : Except Errno ExtendResult → Bool
  | .ok (.fresh _) => true
  | _ => false

/-- Whether no collaborator of an augmentation environment reports a
permission-denied-class error. -/
def envNoPermDenied (env : ProcEnv) : Prop :=
  env.status ≠ .error Errno.EPERM ∧ env.status ≠ .error Errno.EACCES ∧
  env.starttime ≠ .error Errno.EPERM ∧ env.starttime ≠ .error Errno.EACCES ∧
  env.label ≠ .error Errno.EPERM ∧ env.label ≠ .error Errno.EACCES ∧
  env.comm ≠ .error Errno.EPERM ∧ env.comm ≠ .error Errno.EACCES ∧
  env.exe ≠ .error Errno.EPERM ∧ env.exe ≠ .error Errno.EACCES ∧
  env.cmdline ≠ .error Errno.EPERM ∧ env.cmdline ≠ .error Errno.EACCES ∧
  env.tid_comm ≠ .error Errno.EPERM ∧ env.tid_comm ≠ .error Errno.EACCES ∧
  env.cgroup ≠ .error Errno.EPERM ∧ env.cgroup ≠ .error Errno.EACCES ∧
  env.cgroup_root ≠ .error Errno.EPERM ∧ env.cgroup_root ≠ .error Errno.EACCES ∧
  env.audit_session ≠ .error Errno.EPERM ∧ env.audit_session ≠ .error Errno.EACCES ∧
  env.audit_loginuid ≠ .error Errno.EPERM ∧ env.audit_loginuid ≠ .error Errno.EACCES

instance (env : ProcEnv) : Decidable (envNoPermDenied env) := by
  unfold envNoPermDenied
  infer_instance

/-- Bitmask inclusion: every bit of `a` is set in `b`. -/
def maskLe (a b : Nat) : Prop := a &&& b = a

instance (a b : Nat) : Decidable (maskLe a b) :=
  inferInstanceAs (Decidable (a &&& b = a))

/-- Bound on one augmentation step: the mask only grows, and only by bits
of `G`. -/
def stepBound (G : Nat) (f : SdBusCreds → Option Errno × SdBusCreds) : Prop :=
  ∀ c, maskLe c.mask (f c).2.mask ∧ maskLe (f c).2.mask (c.mask ||| G)

/-- The step fields touched by everything after the status-record step. -/
def restFieldBits : Nat :=
  SD_BUS_CREDS_PID_STARTTIME ||| SD_BUS_CREDS_SELINUX_CONTEXT ||| SD_BUS_CREDS_COMM |||
  SD_BUS_CREDS_EXE ||| SD_BUS_CREDS_CMDLINE ||| SD_BUS_CREDS_TID_COMM |||
  cgroupFieldBits ||| SD_BUS_CREDS_AUDIT_SESSION_ID ||| SD_BUS_CREDS_AUDIT_LOGIN_UID

/-- Environment in which every collaborator reports permission denied. -/
def envPermAll : ProcEnv :=
  { status := .error Errno.EPERM, starttime := .error Errno.EPERM, clk_tck := 100,
    label := .error Errno.EPERM, comm := .error Errno.EPERM, exe := .error Errno.EPERM,
    cmdline := .error Errno.EPERM, tid_comm := .error Errno.EPERM,
    cgroup := .error Errno.EPERM, cgroup_root := .error Errno.EPERM,
    audit_session := .error Errno.EPERM, audit_loginuid := .error Errno.EPERM }

/-- The bit the spec describes for the capability query: byte `n / 8`, bit
`n % 8` of category `k`'s sub-vector of `b` bytes. -/
def subVecBit (c : SdBusCreds) (k b n : Nat) : Nat :=
  if (((c.capability.getD []).drop (k * b)).take b).getD (n / 8) 0 &&&
     (1 <<< (n % 8)) = 0
  then 0 else 1

/-- A credential set holding two capability bytes per category. -/
def capsCreds : SdBusCreds :=
  { bus_creds_new with
      mask := capsFieldBits,
      capability := some [1, 2, 3, 4, 5, 6, 7, 8],
      capability_size := 8 }

/-- A constant cgroup-collaborator environment. -/
def cgEnvConst : CgEnv :=
  { shift := fun _ _ => .ok "/shifted",
    pathUnit := fun _ => .ok "u.service",
    pathUserUnit := fun _ => .ok "uu.service",
    pathSlice := fun _ => .ok "s.slice",
    pathSession := fun _ => .ok "sess1",
    pathOwnerUid := fun _ => .ok 42 }

/-- A credential set with the owner-uid bit present and a raw cgroup path. -/
def ownerCreds : SdBusCreds :=
  { bus_creds_new with
      mask := SD_BUS_CREDS_OWNER_UID,
      cgroup := some "/x" }

/-- A credential set with the unit bit present and a raw cgroup path. -/
def unitCreds : SdBusCreds :=
  { bus_creds_new with
      mask := SD_BUS_CREDS_UNIT,
      cgroup := some "/x" }

/-- Status record with a good `Uid:` line and a malformed `Groups:` line. -/
def envUidGroups : ProcEnv :=
  { envPermAll with status := .ok ["Uid:\t1 2 3 4", "Groups:\tx"] }

/-- C4 counterexample environment: no collaborator reports permission denied,
but the security-label read fails with `-ENOENT` (which augmentation skips). -/
def envNoPerm : ProcEnv :=
  { status := .error Errno.EBADF, starttime := .error Errno.EBADF, clk_tck := 100,
    label := .error Errno.ENOENT, comm := .error Errno.EBADF, exe := .error Errno.EBADF,
    cmdline := .error Errno.EBADF, tid_comm := .error Errno.EBADF,
    cgroup := .error Errno.EBADF, cgroup_root := .error Errno.EBADF,
    audit_session := .error Errno.EBADF, audit_loginuid := .error Errno.EBADF }

/-- A one-field original set used by the extend instances. -/
def extendBase : SdBusCreds := { bus_creds_new with mask := SD_BUS_CREDS_PID, pid := 1 }

/-- The result of a concrete successful extend call. -/
def extendWitRes : ExtendResult :=
  match bus_creds_extend_by_pid extendBase
      (SD_BUS_CREDS_AUGMENT ||| SD_BUS_CREDS_PID) envPermAll with
  | .ok r => r
  | .error _ => .same bus_creds_new

/-- The sixteen lowercase hex digits. -/
def lowerHexDigits : List Char :=
  ['0', '1', '2', '3', '4', '5', '6', '7'] ++
    ['8', '9'] ++ ['a', 'b', 'c', 'd', 'e', 'f']

/-- `hexchar` from util.c (a collaborator outside this file): it indexes the
table "0123456789abcdef", so digits come out lowercase. -/
def hexchar (n : Nat) : Char :=
  if n < 10 then Char.ofNat ('0'.toNat + n) else Char.ofNat ('a'.toNat + n - 10)

/-- Value of a hex digit, defaulting to 0. -/
def hexVal (ch : Char) : Nat := (unhexchar ch).getD 0

/-- The bytes a hex string denotes, in parse order (two digits per byte). -/
def pairList : List Char → List Nat
  | c1 :: c2 :: rest => ((hexVal c1) <<< 4 ||| hexVal c2) :: pairList rest
  | _ => []

/-- Modelled from the spec: re-encoding a category sub-vector through the same
pairing-and-reversal rule — the stored bytes are read back from the highest
relative offset down to offset 0 (the vector reversed), each byte emitted as
two hex digits, lowercase as by util.c's `hexchar`.  The encoder itself is not
in bus-creds.c; only this rule is specified. -/
def encode_caps (sub : List Nat) : List Char :=
  (sub.reverse.map fun b => [hexchar (b / 16), hexchar (b % 16)]).flatten

theorem maskLe_iff {a b : Nat} :
    maskLe a b ↔ ∀ i, a.testBit i = true → b.testBit i = true := by
  constructor
  · intro h i hi
    have := congrArg (Nat.testBit · i) h
    simp only [Nat.testBit_land, hi, Bool.true_and] at this
    exact this
  · intro h
    apply Nat.eq_of_testBit_eq
    intro i
    rw [Nat.testBit_land]
    cases ha : a.testBit i with
    | false => simp
    | true => simp [h i ha]

theorem maskLe_refl (a : Nat) : maskLe a a := by
  rw [maskLe_iff]; intro i h; exact h

theorem maskLe_zero (b : Nat) : maskLe 0 b := by
  rw [maskLe_iff]; intro i h; simp [Nat.zero_testBit] at h

theorem maskLe_trans {a b d : Nat} (h1 : maskLe a b) (h2 : maskLe b d) : maskLe a d := by
  rw [maskLe_iff] at h1 h2 ⊢
  intro i hi; exact h2 i (h1 i hi)

theorem maskLe_or_left {x a : Nat} (b : Nat) (h : maskLe x a) : maskLe x (a ||| b) := by
  rw [maskLe_iff] at h ⊢
  intro i hi; simp [Nat.testBit_lor, h i hi]

theorem maskLe_or_right {x b : Nat} (a : Nat) (h : maskLe x b) : maskLe x (a ||| b) := by
  rw [maskLe_iff] at h ⊢
  intro i hi; simp [Nat.testBit_lor, h i hi]

theorem maskLe_self_or (a b : Nat) : maskLe a (a ||| b) :=
  maskLe_or_left b (maskLe_refl a)

theorem maskLe_or_elim {a b z : Nat} (h1 : maskLe a z) (h2 : maskLe b z) :
    maskLe (a ||| b) z := by
  rw [maskLe_iff] at h1 h2 ⊢
  intro i hi
  rw [Nat.testBit_lor] at hi
  rcases Bool.or_eq_true_iff.mp hi with h | h
  · exact h1 i h
  · exact h2 i h

theorem maskLe_and_left (a b : Nat) : maskLe (a &&& b) a := by
  rw [maskLe_iff]
  intro i hi
  rw [Nat.testBit_land] at hi
  exact (Bool.and_eq_true_iff.mp hi).1

theorem maskLe_and_right (a b : Nat) : maskLe (a &&& b) b := by
  rw [maskLe_iff]
  intro i hi
  rw [Nat.testBit_land] at hi
  exact (Bool.and_eq_true_iff.mp hi).2

theorem maskLe_and_and {a b g : Nat} : maskLe (a &&& b &&& g) (b &&& g) := by
  rw [maskLe_iff]
  intro i hi
  simp only [Nat.testBit_land, Bool.and_eq_true_iff] at hi ⊢
  exact ⟨hi.1.2, hi.2⟩

/-- A mask squeezed between `a` and `a ||| G` agrees with `a` on any bit set
disjoint from `G`. -/
theorem mask_between_and {a d G X : Nat} (h1 : maskLe a d) (h2 : maskLe d (a ||| G))
    (hGX : G &&& X = 0) : d &&& X = a &&& X := by
  rw [maskLe_iff] at h1 h2
  apply Nat.eq_of_testBit_eq
  intro i
  simp only [Nat.testBit_land]
  cases hX : X.testBit i with
  | false => simp
  | true =>
    have hG : G.testBit i = false := by
      by_contra hc
      rw [Bool.not_eq_false] at hc
      have : (G &&& X).testBit i = true := by
        rw [Nat.testBit_land, hc, hX]; rfl
      rw [hGX, Nat.zero_testBit] at this
      exact Bool.false_ne_true this
    cases ha : a.testBit i with
    | true => simp [h1 i ha]
    | false =>
      cases hd : d.testBit i with
      | false => simp
      | true =>
        have := h2 i hd
        rw [Nat.testBit_lor, ha, hG] at this
        exact absurd this (by simp)

theorem maskLe_or_or {a B G : Nat} (h : maskLe B G) : maskLe (a ||| B) (a ||| G) :=
  maskLe_or_elim (maskLe_self_or a G) (maskLe_or_right a h)

theorem parse_caps_keeps (c : SdBusCreds) (offset : Nat) (p : List Char) :
    (parse_caps c offset p).2.mask = c.mask ∧
    (parse_caps c offset p).2.cmdline = c.cmdline := by
  simp only [parse_caps]
  repeat' split
  all_goals exact ⟨rfl, rfl⟩

theorem capsLine_bound (c : SdBusCreds) (offset B : Nat) (p : List Char) :
    maskLe c.mask (capsLine c offset B p).2.mask ∧
    maskLe (capsLine c offset B p).2.mask (c.mask ||| B) ∧
    (capsLine c offset B p).2.cmdline = c.cmdline := by
  have hm := parse_caps_keeps c offset p
  unfold capsLine
  rcases hpc : parse_caps c offset p with ⟨err, c1⟩
  rw [hpc] at hm
  cases err with
  | some e =>
    simp only []
    exact ⟨by rw [hm.1]; exact maskLe_refl _,
           by rw [hm.1]; exact maskLe_self_or _ _, hm.2⟩
  | none =>
    simp only []
    exact ⟨by rw [hm.1]; exact maskLe_self_or _ _,
           by rw [hm.1]; exact maskLe_refl _, hm.2⟩

theorem processLine_bound (missing : Nat) (l : String) (c : SdBusCreds) :
    maskLe c.mask (processLine missing c l).2.mask ∧
    maskLe (processLine missing c l).2.mask (c.mask ||| statusFieldBits) ∧
    (processLine missing c l).2.cmdline = c.cmdline := by
  simp only [processLine]
  repeat' split
  all_goals refine ⟨?_, ?_, ?_⟩
  all_goals
    first
      | rfl
      | exact maskLe_refl _
      | exact maskLe_self_or _ _
      | exact maskLe_or_or (maskLe_trans (maskLe_and_right _ _)
          (by decide : maskLe uidFieldBits statusFieldBits))
      | exact maskLe_or_or (maskLe_trans (maskLe_and_right _ _)
          (by decide : maskLe gidFieldBits statusFieldBits))
      | exact maskLe_or_or
          (by decide : maskLe SD_BUS_CREDS_SUPPLEMENTARY_GIDS statusFieldBits)
      | exact (capsLine_bound _ _ _ _).1
      | exact maskLe_trans (capsLine_bound _ _ _ _).2.1 (maskLe_or_or
          (by decide : maskLe SD_BUS_CREDS_EFFECTIVE_CAPS statusFieldBits))
      | exact maskLe_trans (capsLine_bound _ _ _ _).2.1 (maskLe_or_or
          (by decide : maskLe SD_BUS_CREDS_PERMITTED_CAPS statusFieldBits))
      | exact maskLe_trans (capsLine_bound _ _ _ _).2.1 (maskLe_or_or
          (by decide : maskLe SD_BUS_CREDS_INHERITABLE_CAPS statusFieldBits))
      | exact maskLe_trans (capsLine_bound _ _ _ _).2.1 (maskLe_or_or
          (by decide : maskLe SD_BUS_CREDS_BOUNDING_CAPS statusFieldBits))
      | exact (capsLine_bound _ _ _ _).2.2

theorem processLines_bound (missing : Nat) (ls : List String) (c : SdBusCreds) :
    maskLe c.mask (processLines missing ls c).2.mask ∧
    maskLe (processLines missing ls c).2.mask (c.mask ||| statusFieldBits) ∧
    (processLines missing ls c).2.cmdline = c.cmdline := by
  induction ls generalizing c with
  | nil => exact ⟨maskLe_refl _, maskLe_self_or _ _, rfl⟩
  | cons l ls ih =>
    have hb := processLine_bound missing l c
    unfold processLines
    rcases hpl : processLine missing c l with ⟨err, c1⟩
    rw [hpl] at hb
    cases err with
    | some e => exact hb
    | none =>
      simp only []
      rcases ih c1 with ⟨i1, i2, i3⟩
      refine ⟨maskLe_trans hb.1 i1, maskLe_trans i2 ?_, i3.trans hb.2.2⟩
      exact maskLe_or_elim hb.2.1 (maskLe_or_right _ (maskLe_refl _))

theorem statusStep_bound (missing : Nat) (env : ProcEnv) :
    stepBound statusFieldBits (statusStep missing env) := by
  intro c
  unfold statusStep
  repeat' split
  all_goals
    first
      | exact ⟨maskLe_refl _, maskLe_self_or _ _⟩
      | exact ⟨(processLines_bound _ _ _).1, (processLines_bound _ _ _).2.1⟩

theorem statusStep_keeps (missing : Nat) (env : ProcEnv) (c : SdBusCreds) :
    (statusStep missing env c).2.cmdline = c.cmdline := by
  unfold statusStep
  repeat' split
  all_goals first | rfl | exact (processLines_bound _ _ _).2.2

theorem starttimeStep_bound (missing : Nat) (env : ProcEnv) :
    stepBound SD_BUS_CREDS_PID_STARTTIME (starttimeStep missing env) := by
  intro c
  unfold starttimeStep
  repeat' split
  all_goals
    first
      | exact ⟨maskLe_refl _, maskLe_self_or _ _⟩
      | exact ⟨maskLe_self_or _ _, maskLe_refl _⟩

theorem labelStep_bound (missing : Nat) (env : ProcEnv) :
    stepBound SD_BUS_CREDS_SELINUX_CONTEXT (labelStep missing env) := by
  intro c
  unfold labelStep
  repeat' split
  all_goals
    first
      | exact ⟨maskLe_refl _, maskLe_self_or _ _⟩
      | exact ⟨maskLe_self_or _ _, maskLe_refl _⟩

theorem commStep_bound (missing : Nat) (env : ProcEnv) :
    stepBound SD_BUS_CREDS_COMM (commStep missing env) := by
  intro c
  unfold commStep
  repeat' split
  all_goals
    first
      | exact ⟨maskLe_refl _, maskLe_self_or _ _⟩
      | exact ⟨maskLe_self_or _ _, maskLe_refl _⟩

theorem exeStep_bound (missing : Nat) (env : ProcEnv) :
    stepBound SD_BUS_CREDS_EXE (exeStep missing env) := by
  intro c
  unfold exeStep
  repeat' split
  all_goals
    first
      | exact ⟨maskLe_refl _, maskLe_self_or _ _⟩
      | exact ⟨maskLe_self_or _ _, maskLe_refl _⟩

theorem cmdlineStep_bound (missing : Nat) (env : ProcEnv) :
    stepBound SD_BUS_CREDS_CMDLINE (cmdlineStep missing env) := by
  intro c
  unfold cmdlineStep
  repeat' split
  all_goals
    first
      | exact ⟨maskLe_refl _, maskLe_self_or _ _⟩
      | exact ⟨maskLe_self_or _ _, maskLe_refl _⟩

theorem tidCommStep_bound (missing : Nat) (tid1 : Int) (env : ProcEnv) :
    stepBound SD_BUS_CREDS_TID_COMM (tidCommStep missing tid1 env) := by
  intro c
  unfold tidCommStep
  repeat' split
  all_goals
    first
      | exact ⟨maskLe_refl _, maskLe_self_or _ _⟩
      | exact ⟨maskLe_self_or _ _, maskLe_refl _⟩

theorem cgroupStep_bound (missing : Nat) (env : ProcEnv) :
    stepBound cgroupFieldBits (cgroupStep missing env) := by
  intro c
  unfold cgroupStep
  repeat' split
  all_goals
    first
      | exact ⟨maskLe_refl _, maskLe_self_or _ _⟩
      | exact ⟨maskLe_self_or _ _, maskLe_or_or (maskLe_and_right _ _)⟩

theorem auditSessionStep_bound (missing : Nat) (env : ProcEnv) :
    stepBound SD_BUS_CREDS_AUDIT_SESSION_ID (auditSessionStep missing env) := by
  intro c
  unfold auditSessionStep
  repeat' split
  all_goals
    first
      | exact ⟨maskLe_refl _, maskLe_self_or _ _⟩
      | exact ⟨maskLe_self_or _ _, maskLe_refl _⟩

theorem auditLoginStep_bound (missing : Nat) (env : ProcEnv) :
    stepBound SD_BUS_CREDS_AUDIT_LOGIN_UID (auditLoginStep missing env) := by
  intro c
  unfold auditLoginStep
  repeat' split
  all_goals
    first
      | exact ⟨maskLe_refl _, maskLe_self_or _ _⟩
      | exact ⟨maskLe_self_or _ _, maskLe_refl _⟩

/-- Composing one step after a partial pipeline keeps the mask between
`c0.mask` and `c0.mask ||| G`, as long as the step's own bits lie in `G`. -/
theorem andThen_bound {c0 : SdBusCreds} {G G2 : Nat} {r : Option Errno × SdBusCreds}
    {f : SdBusCreds → Option Errno × SdBusCreds}
    (h1 : maskLe c0.mask r.2.mask) (h2 : maskLe r.2.mask (c0.mask ||| G))
    (hf : stepBound G2 f) (hG2 : maskLe G2 G) :
    maskLe c0.mask (andThen r f).2.mask ∧
    maskLe (andThen r f).2.mask (c0.mask ||| G) := by
  rcases r with ⟨err, d⟩
  cases err with
  | some e => exact ⟨h1, h2⟩
  | none =>
    simp only [andThen]
    rcases hf d with ⟨hfa, hfb⟩
    refine ⟨maskLe_trans h1 hfa, maskLe_trans hfb ?_⟩
    exact maskLe_or_elim h2 (maskLe_or_right _ hG2)

theorem andThen_keep {r : Option Errno × SdBusCreds}
    {f : SdBusCreds → Option Errno × SdBusCreds} {x : Option (List Nat)}
    (h : r.2.cmdline = x) (hf : ∀ d, (f d).2.cmdline = d.cmdline) :
    (andThen r f).2.cmdline = x := by
  rcases r with ⟨err, d⟩
  cases err with
  | some e => exact h
  | none => exact (hf d).trans h

/-- The pipeline after the status step keeps the mask within `G`, provided all
its step bits lie in `G`. -/
theorem augmentRest_bound {c0 : SdBusCreds} {G : Nat} (missing : Nat) (tid1 : Int)
    (env : ProcEnv) {r : Option Errno × SdBusCreds}
    (h1 : maskLe c0.mask r.2.mask) (h2 : maskLe r.2.mask (c0.mask ||| G))
    (hG : maskLe restFieldBits G) :
    maskLe c0.mask (augmentRest missing tid1 env r).2.mask ∧
    maskLe (augmentRest missing tid1 env r).2.mask (c0.mask ||| G) := by
  have sub : ∀ x : Nat, maskLe x restFieldBits → maskLe x G :=
    fun x h => maskLe_trans h hG
  unfold augmentRest
  have b1 := andThen_bound h1 h2 (starttimeStep_bound missing env) (sub _ (by decide))
  have b2 := andThen_bound b1.1 b1.2 (labelStep_bound missing env) (sub _ (by decide))
  have b3 := andThen_bound b2.1 b2.2 (commStep_bound missing env) (sub _ (by decide))
  have b4 := andThen_bound b3.1 b3.2 (exeStep_bound missing env) (sub _ (by decide))
  have b5 := andThen_bound b4.1 b4.2 (cmdlineStep_bound missing env) (sub _ (by decide))
  have b6 := andThen_bound b5.1 b5.2 (tidCommStep_bound missing tid1 env) (sub _ (by decide))
  have b7 := andThen_bound b6.1 b6.2 (cgroupStep_bound missing env) (sub _ (by decide))
  have b8 := andThen_bound b7.1 b7.2 (auditSessionStep_bound missing env) (sub _ (by decide))
  exact andThen_bound b8.1 b8.2 (auditLoginStep_bound missing env) (sub _ (by decide))

theorem nat_and_or_left (x a b : Nat) : x &&& (a ||| b) = (x &&& a) ||| (x &&& b) := by
  apply Nat.eq_of_testBit_eq
  intro i
  simp only [Nat.testBit_land, Nat.testBit_lor]
  cases x.testBit i <;> cases a.testBit i <;> cases b.testBit i <;> rfl

theorem or_and_split (a b x : Nat) : (a ||| b) &&& x = (a &&& x) ||| (b &&& x) := by
  apply Nat.eq_of_testBit_eq
  intro i
  simp only [Nat.testBit_land, Nat.testBit_lor]
  cases x.testBit i <;> cases a.testBit i <;> cases b.testBit i <;> rfl

theorem or_and_absorb (a b : Nat) : (a ||| b) &&& b = b := by
  apply Nat.eq_of_testBit_eq
  intro i
  simp only [Nat.testBit_land, Nat.testBit_lor]
  cases a.testBit i <;> cases b.testBit i <;> rfl

theorem lor_zero_right (a : Nat) : a ||| 0 = a := by
  apply Nat.eq_of_testBit_eq
  intro i
  simp [Nat.testBit_lor, Nat.zero_testBit]

/-- A hard failure short-circuits the whole remaining pipeline. -/
theorem augmentRest_err (missing : Nat) (tid1 : Int) (env : ProcEnv) (e : Errno)
    (d : SdBusCreds) : augmentRest missing tid1 env (some e, d) = (some e, d) := rfl

/-- A permission-denied error on the status record makes the status step a
no-op. -/
theorem statusStep_perm_skip (missing : Nat) (env : ProcEnv) (c : SdBusCreds)
    (h : env.status = .error Errno.EPERM ∨ env.status = .error Errno.EACCES) :
    statusStep missing env c = (none, c) := by
  unfold statusStep
  rcases h with h | h <;> rw [h] <;> split <;> simp

/-- An empty status record also leaves the credential set unchanged. -/
theorem statusStep_empty_skip (missing : Nat) (env : ProcEnv) (c : SdBusCreds)
    (h : env.status = .ok []) : statusStep missing env c = (none, c) := by
  unfold statusStep
  rw [h]
  split <;> rfl

theorem starttimeStep_keep (missing : Nat) (env : ProcEnv) (c : SdBusCreds) :
    (starttimeStep missing env c).2.cmdline = c.cmdline := by
  unfold starttimeStep; repeat' split
  all_goals rfl

theorem labelStep_keep (missing : Nat) (env : ProcEnv) (c : SdBusCreds) :
    (labelStep missing env c).2.cmdline = c.cmdline := by
  unfold labelStep; repeat' split
  all_goals rfl

theorem commStep_keep (missing : Nat) (env : ProcEnv) (c : SdBusCreds) :
    (commStep missing env c).2.cmdline = c.cmdline := by
  unfold commStep; repeat' split
  all_goals rfl

theorem exeStep_keep (missing : Nat) (env : ProcEnv) (c : SdBusCreds) :
    (exeStep missing env c).2.cmdline = c.cmdline := by
  unfold exeStep; repeat' split
  all_goals rfl

theorem tidCommStep_keep (missing : Nat) (tid1 : Int) (env : ProcEnv) (c : SdBusCreds) :
    (tidCommStep missing tid1 env c).2.cmdline = c.cmdline := by
  unfold tidCommStep; repeat' split
  all_goals rfl

theorem cgroupStep_keep (missing : Nat) (env : ProcEnv) (c : SdBusCreds) :
    (cgroupStep missing env c).2.cmdline = c.cmdline := by
  unfold cgroupStep; repeat' split
  all_goals rfl

theorem auditSessionStep_keep (missing : Nat) (env : ProcEnv) (c : SdBusCreds) :
    (auditSessionStep missing env c).2.cmdline = c.cmdline := by
  unfold auditSessionStep; repeat' split
  all_goals rfl

theorem auditLoginStep_keep (missing : Nat) (env : ProcEnv) (c : SdBusCreds) :
    (auditLoginStep missing env c).2.cmdline = c.cmdline := by
  unfold auditLoginStep; repeat' split
  all_goals rfl

/-- A step whose bits avoid `X` preserves `mask &&& X`. -/
theorem stepBound_preserves {G X : Nat} {f : SdBusCreds → Option Errno × SdBusCreds}
    (hf : stepBound G f) (hGX : G &&& X = 0) (c : SdBusCreds) :
    (f c).2.mask &&& X = c.mask &&& X :=
  mask_between_and (hf c).1 (hf c).2 hGX

/-- Case analysis of the command-line step when the bit starts unset: either
the bit stays unset (with the blob untouched or freed), or the blob was a
nonempty read and the bit is published. -/
theorem cmdlineStep_cases (missing : Nat) (env : ProcEnv) (c : SdBusCreds)
    (hbit : c.mask &&& SD_BUS_CREDS_CMDLINE = 0) :
    ((cmdlineStep missing env c).2.mask &&& SD_BUS_CREDS_CMDLINE = 0 ∧
      ((cmdlineStep missing env c).2.cmdline = c.cmdline ∨
       (cmdlineStep missing env c).2.cmdline = none)) ∨
    (∃ bytes, bytes ≠ [] ∧ env.cmdline = .ok bytes ∧
      (cmdlineStep missing env c).2.cmdline = some bytes ∧
      (cmdlineStep missing env c).2.mask = c.mask ||| SD_BUS_CREDS_CMDLINE) := by
  unfold cmdlineStep
  split
  · exact Or.inl ⟨hbit, Or.inl rfl⟩
  · split
    · split
      · exact Or.inl ⟨hbit, Or.inl rfl⟩
      · split
        · exact Or.inl ⟨hbit, Or.inl rfl⟩
        · exact Or.inl ⟨hbit, Or.inl rfl⟩
    · rename_i bytes heq
      split
      · exact Or.inl ⟨hbit, Or.inr rfl⟩
      · rename_i hlen
        refine Or.inr ⟨bytes, ?_, heq, rfl, rfl⟩
        intro hnil
        exact hlen (by rw [hnil]; rfl)

theorem sd_bus_creds_ref_mask (c : SdBusCreds) : (sd_bus_creds_ref c).mask = c.mask := by
  unfold sd_bus_creds_ref
  split <;> rfl

/-- All fetch steps together never clear a mask bit. -/
theorem augmentSteps_grows (missing : Nat) (tid1 : Int) (env : ProcEnv)
    (c2 : SdBusCreds) :
    maskLe c2.mask (augmentSteps missing tid1 env c2).2.mask := by
  unfold augmentSteps
  have hst := statusStep_bound missing env c2
  have hb := augmentRest_bound (G := statusFieldBits ||| restFieldBits) missing tid1 env
    hst.1 (maskLe_trans hst.2 (maskLe_or_or (maskLe_self_or _ _)))
    (maskLe_or_right _ (maskLe_refl _))
  exact hb.1

/-- All fetch steps together publish only field bits. -/
theorem augmentSteps_bounded (missing : Nat) (tid1 : Int) (env : ProcEnv)
    (c2 : SdBusCreds) :
    maskLe (augmentSteps missing tid1 env c2).2.mask
      (c2.mask ||| (statusFieldBits ||| restFieldBits)) := by
  unfold augmentSteps
  have hst := statusStep_bound missing env c2
  have hb := augmentRest_bound (G := statusFieldBits ||| restFieldBits) missing tid1 env
    hst.1 (maskLe_trans hst.2 (maskLe_or_or (maskLe_self_or _ _)))
    (maskLe_or_right _ (maskLe_refl _))
  exact hb.2

/-- Publishing the pid/tid bits never clears a mask bit. -/
theorem publishPidTid_grows (c : SdBusCreds) (pid1 tid1 : Int) :
    maskLe c.mask (publishPidTid c pid1 tid1).mask := by
  unfold publishPidTid
  split
  · exact maskLe_or_left _ (maskLe_self_or _ _)
  · exact maskLe_self_or _ _

/-- Publishing the pid/tid bits does not change other parts of the mask. -/
theorem publishPidTid_mask_and (c : SdBusCreds) (pid1 tid1 : Int) (X : Nat)
    (hP : SD_BUS_CREDS_PID &&& X = 0) (hT : SD_BUS_CREDS_TID &&& X = 0) :
    (publishPidTid c pid1 tid1).mask &&& X = c.mask &&& X := by
  unfold publishPidTid
  split
  · rw [or_and_split, or_and_split, hP, hT, lor_zero_right, lor_zero_right]
  · rw [or_and_split, hP, lor_zero_right]

theorem publishPidTid_cmdline (c : SdBusCreds) (pid1 tid1 : Int) :
    (publishPidTid c pid1 tid1).cmdline = c.cmdline := by
  unfold publishPidTid
  split <;> rfl

/-- Augmentation never clears a mask bit. -/
theorem bus_creds_add_more_grows (c : SdBusCreds) (mask : Nat) (pid tid : Int)
    (env : ProcEnv) :
    maskLe c.mask (bus_creds_add_more c mask pid tid env).2.mask := by
  simp only [bus_creds_add_more]
  by_cases h1 : mask &&& SD_BUS_CREDS_AUGMENT = 0
  · rw [if_pos h1]; exact maskLe_refl _
  · rw [if_neg h1]
    by_cases h2 : mask &&& not64 c.mask = 0
    · rw [if_pos h2]; exact maskLe_refl _
    · rw [if_neg h2]
      by_cases h3 : resolvePid c pid ≤ 0
      · rw [if_pos h3]; exact maskLe_refl _
      · rw [if_neg h3]
        exact maskLe_trans (publishPidTid_grows _ _ _) (augmentSteps_grows _ _ _ _)

theorem copyBlock_grows {x : Nat} (c : SdBusCreds) (mask g addBits : Nat)
    (upd : SdBusCreds → SdBusCreds) (n : SdBusCreds)
    (hupd : ∀ k, (upd k).mask = k.mask) (h : maskLe x n.mask) :
    maskLe x (copyBlock c mask g addBits upd n).mask := by
  unfold copyBlock
  split
  · simp only []
    rw [hupd n]
    exact maskLe_or_left _ h
  · exact h

theorem copyBlock_covers (c : SdBusCreds) (mask g addBits : Nat)
    (upd : SdBusCreds → SdBusCreds) (n : SdBusCreds)
    (hadd : maskLe (c.mask &&& mask &&& g) addBits) :
    maskLe (c.mask &&& mask &&& g) (copyBlock c mask g addBits upd n).mask := by
  unfold copyBlock
  split
  · exact maskLe_or_right _ hadd
  · rename_i hg
    rw [not_not.mp (fun hne => hg hne)]
    exact maskLe_zero _

section

attribute [local irreducible] copyBlock

/-- The copy phase of extend publishes at least every field bit present in both
the original mask and the target mask. -/
theorem credsCopy_covers (c : SdBusCreds) (mask : Nat) :
    maskLe (c.mask &&& mask &&& allFieldBits) (credsCopy c mask).mask := by
  have hALL : allFieldBits =
      SD_BUS_CREDS_UID ||| SD_BUS_CREDS_EUID ||| SD_BUS_CREDS_SUID ||| SD_BUS_CREDS_FSUID |||
      SD_BUS_CREDS_GID ||| SD_BUS_CREDS_EGID ||| SD_BUS_CREDS_SGID ||| SD_BUS_CREDS_FSGID |||
      SD_BUS_CREDS_SUPPLEMENTARY_GIDS ||| SD_BUS_CREDS_PID ||| SD_BUS_CREDS_TID |||
      SD_BUS_CREDS_PID_STARTTIME ||| SD_BUS_CREDS_COMM ||| SD_BUS_CREDS_TID_COMM |||
      SD_BUS_CREDS_EXE ||| SD_BUS_CREDS_CMDLINE ||| cgroupFieldBits ||| capsFieldBits |||
      SD_BUS_CREDS_SELINUX_CONTEXT ||| SD_BUS_CREDS_AUDIT_SESSION_ID |||
      SD_BUS_CREDS_AUDIT_LOGIN_UID ||| SD_BUS_CREDS_UNIQUE_NAME |||
      SD_BUS_CREDS_WELL_KNOWN_NAMES ||| SD_BUS_CREDS_DESCRIPTION := by decide
  rw [hALL]
  simp only [nat_and_or_left]
  simp only [credsCopy]
  repeat' apply maskLe_or_elim
  all_goals
    repeat
      first
        | exact copyBlock_covers _ _ _ _ _ _ (maskLe_and_right _ _)
        | exact copyBlock_covers _ _ _ _ _ _ maskLe_and_and
        | exact copyBlock_covers _ _ _ _ _ _ (maskLe_refl _)
        | refine copyBlock_grows _ _ _ _ _ _ (fun _ => rfl) ?_

end

theorem getD_drop_take (l : List Nat) (m b i : Nat) (hi : i < b) :
    (((l.drop m).take b).getD i 0) = l.getD (m + i) 0 := by
  simp [List.getD_eq_getElem?_getD, List.getElem?_take, hi, List.getElem?_drop]

theorem and_zero_right (x : Nat) : x &&& 0 = 0 := by
  apply Nat.eq_of_testBit_eq
  intro i
  simp [Nat.testBit_land, Nat.zero_testBit]

theorem or_and_zero (a B X : Nat) (hB : B &&& X = 0) : (a ||| B) &&& X = a &&& X := by
  rw [or_and_split, hB, lor_zero_right]

theorem maskLe_and_mono_right (x : Nat) {a b : Nat} (h : maskLe a b) :
    maskLe (x &&& a) (x &&& b) := by
  rw [maskLe_iff] at h ⊢
  intro i hi
  rw [Nat.testBit_land] at hi ⊢
  exact Bool.and_eq_true_iff.mpr
    ⟨(Bool.and_eq_true_iff.mp hi).1, h i (Bool.and_eq_true_iff.mp hi).2⟩

theorem maskLe_nonzero {a b : Nat} (h : maskLe a b) (ha : a ≠ 0) : b ≠ 0 := by
  intro hb
  rw [maskLe, hb, and_zero_right] at h
  exact ha h.symm

/-- After a skipped status step, the rest of the pipeline does not touch the
status-record field bits. -/
theorem augmentRest_from_none (missing : Nat) (tid1 : Int) (env : ProcEnv)
    (d : SdBusCreds) :
    (augmentRest missing tid1 env (none, d)).2.mask &&& statusFieldBits =
      d.mask &&& statusFieldBits := by
  have hb := augmentRest_bound (G := restFieldBits) missing tid1 env
    (r := ((none : Option Errno), d)) (maskLe_refl _) (maskLe_self_or _ _)
    (maskLe_refl _)
  exact mask_between_and hb.1 hb.2 (by decide)

/-- One step that neither reads nor publishes the command-line field preserves
both the blob and its mask bit through `andThen`. -/
theorem andThen_cmd_pres {f : SdBusCreds → Option Errno × SdBusCreds} {G : Nat}
    (hf : stepBound G f) (hk : ∀ d, (f d).2.cmdline = d.cmdline)
    (hGX : G &&& SD_BUS_CREDS_CMDLINE = 0) (rr : Option Errno × SdBusCreds) :
    (andThen rr f).2.cmdline = rr.2.cmdline ∧
    (andThen rr f).2.mask &&& SD_BUS_CREDS_CMDLINE =
      rr.2.mask &&& SD_BUS_CREDS_CMDLINE := by
  rcases rr with ⟨err, d⟩
  cases err with
  | some e => exact ⟨rfl, rfl⟩
  | none => exact ⟨hk d, stepBound_preserves hf hGX d⟩

/-- Through the whole post-status pipeline, when the command-line bit starts
unset it either stays unset (blob untouched or freed) or was published together
with a nonempty blob read from the environment. -/
theorem augmentRest_cmdline (missing : Nat) (tid1 : Int) (env : ProcEnv)
    (r : Option Errno × SdBusCreds)
    (hbit : r.2.mask &&& SD_BUS_CREDS_CMDLINE = 0) :
    ((augmentRest missing tid1 env r).2.mask &&& SD_BUS_CREDS_CMDLINE = 0 ∧
      ((augmentRest missing tid1 env r).2.cmdline = r.2.cmdline ∨
       (augmentRest missing tid1 env r).2.cmdline = none)) ∨
    (∃ bytes, bytes ≠ [] ∧ env.cmdline = .ok bytes ∧
      (augmentRest missing tid1 env r).2.cmdline = some bytes ∧
      (augmentRest missing tid1 env r).2.mask &&& SD_BUS_CREDS_CMDLINE ≠ 0) := by
  unfold augmentRest
  set A1 := andThen r (starttimeStep missing env) with hA1
  set A2 := andThen A1 (labelStep missing env) with hA2
  set A3 := andThen A2 (commStep missing env) with hA3
  set A4 := andThen A3 (exeStep missing env) with hA4
  set A5 := andThen A4 (cmdlineStep missing env) with hA5
  set A6 := andThen A5 (tidCommStep missing tid1 env) with hA6
  set A7 := andThen A6 (cgroupStep missing env) with hA7
  set A8 := andThen A7 (auditSessionStep missing env) with hA8
  set A9 := andThen A8 (auditLoginStep missing env) with hA9
  have s1 : A1.2.cmdline = r.2.cmdline ∧
      A1.2.mask &&& SD_BUS_CREDS_CMDLINE = r.2.mask &&& SD_BUS_CREDS_CMDLINE := by
    rw [hA1]
    exact andThen_cmd_pres (starttimeStep_bound missing env)
      (starttimeStep_keep missing env) (by decide) r
  have s2 : A2.2.cmdline = A1.2.cmdline ∧
      A2.2.mask &&& SD_BUS_CREDS_CMDLINE = A1.2.mask &&& SD_BUS_CREDS_CMDLINE := by
    rw [hA2]
    exact andThen_cmd_pres (labelStep_bound missing env)
      (labelStep_keep missing env) (by decide) A1
  have s3 : A3.2.cmdline = A2.2.cmdline ∧
      A3.2.mask &&& SD_BUS_CREDS_CMDLINE = A2.2.mask &&& SD_BUS_CREDS_CMDLINE := by
    rw [hA3]
    exact andThen_cmd_pres (commStep_bound missing env)
      (commStep_keep missing env) (by decide) A2
  have s4 : A4.2.cmdline = A3.2.cmdline ∧
      A4.2.mask &&& SD_BUS_CREDS_CMDLINE = A3.2.mask &&& SD_BUS_CREDS_CMDLINE := by
    rw [hA4]
    exact andThen_cmd_pres (exeStep_bound missing env)
      (exeStep_keep missing env) (by decide) A3
  have t1 : A6.2.cmdline = A5.2.cmdline ∧
      A6.2.mask &&& SD_BUS_CREDS_CMDLINE = A5.2.mask &&& SD_BUS_CREDS_CMDLINE := by
    rw [hA6]
    exact andThen_cmd_pres (tidCommStep_bound missing tid1 env)
      (tidCommStep_keep missing tid1 env) (by decide) A5
  have t2 : A7.2.cmdline = A6.2.cmdline ∧
      A7.2.mask &&& SD_BUS_CREDS_CMDLINE = A6.2.mask &&& SD_BUS_CREDS_CMDLINE := by
    rw [hA7]
    exact andThen_cmd_pres (cgroupStep_bound missing env)
      (cgroupStep_keep missing env) (by decide) A6
  have t3 : A8.2.cmdline = A7.2.cmdline ∧
      A8.2.mask &&& SD_BUS_CREDS_CMDLINE = A7.2.mask &&& SD_BUS_CREDS_CMDLINE := by
    rw [hA8]
    exact andThen_cmd_pres (auditSessionStep_bound missing env)
      (auditSessionStep_keep missing env) (by decide) A7
  have t4 : A9.2.cmdline = A8.2.cmdline ∧
      A9.2.mask &&& SD_BUS_CREDS_CMDLINE = A8.2.mask &&& SD_BUS_CREDS_CMDLINE := by
    rw [hA9]
    exact andThen_cmd_pres (auditLoginStep_bound missing env)
      (auditLoginStep_keep missing env) (by decide) A8
  have hBc : A9.2.cmdline = A5.2.cmdline := t4.1.trans (t3.1.trans (t2.1.trans t1.1))
  have hBm : A9.2.mask &&& SD_BUS_CREDS_CMDLINE =
      A5.2.mask &&& SD_BUS_CREDS_CMDLINE := t4.2.trans (t3.2.trans (t2.2.trans t1.2))
  have hA4c : A4.2.cmdline = r.2.cmdline := s4.1.trans (s3.1.trans (s2.1.trans s1.1))
  have hA4m : A4.2.mask &&& SD_BUS_CREDS_CMDLINE =
      r.2.mask &&& SD_BUS_CREDS_CMDLINE := s4.2.trans (s3.2.trans (s2.2.trans s1.2))
  rcases hA4v : A4 with ⟨errA, dA⟩
  rw [hA4v] at hA4c hA4m
  cases errA with
  | some e =>
    have hA5v : A5 = (some e, dA) := by rw [hA5, hA4v]; rfl
    rw [hA5v] at hBc hBm
    exact Or.inl ⟨hBm.trans (hA4m.trans hbit), Or.inl (hBc.trans hA4c)⟩
  | none =>
    have hA5v : A5 = cmdlineStep missing env dA := by rw [hA5, hA4v]; rfl
    have hdAbit : dA.mask &&& SD_BUS_CREDS_CMDLINE = 0 := hA4m.trans hbit
    rw [hA5v] at hBc hBm
    rcases cmdlineStep_cases missing env dA hdAbit with
      ⟨hm0, hcml⟩ | ⟨bytes, hne, henv, hcm, hmset⟩
    · refine Or.inl ⟨hBm.trans hm0, ?_⟩
      rcases hcml with h | h
      · exact Or.inl (hBc.trans (h.trans hA4c))
      · exact Or.inr (hBc.trans h)
    · refine Or.inr ⟨bytes, hne, henv, hBc.trans hcm, ?_⟩
      rw [hBm, hmset, or_and_absorb]
      decide

/-- Lifting of the command-line invariant over all fetch steps. -/
theorem augmentSteps_cmdline (missing : Nat) (tid1 : Int) (env : ProcEnv)
    (c2 : SdBusCreds) (hbit : c2.mask &&& SD_BUS_CREDS_CMDLINE = 0) :
    ((augmentSteps missing tid1 env c2).2.mask &&& SD_BUS_CREDS_CMDLINE = 0 ∧
      ((augmentSteps missing tid1 env c2).2.cmdline = c2.cmdline ∨
       (augmentSteps missing tid1 env c2).2.cmdline = none)) ∨
    (∃ bytes, bytes ≠ [] ∧ env.cmdline = .ok bytes ∧
      (augmentSteps missing tid1 env c2).2.cmdline = some bytes ∧
      (augmentSteps missing tid1 env c2).2.mask &&& SD_BUS_CREDS_CMDLINE ≠ 0) := by
  unfold augmentSteps
  have hr1 : (statusStep missing env c2).2.mask &&& SD_BUS_CREDS_CMDLINE = 0 := by
    rw [stepBound_preserves (statusStep_bound missing env) (by decide) c2]
    exact hbit
  have hrc : (statusStep missing env c2).2.cmdline = c2.cmdline :=
    statusStep_keeps missing env c2
  rcases augmentRest_cmdline missing tid1 env (statusStep missing env c2) hr1 with
    ⟨h1, h2⟩ | ⟨bytes, hb1, hb2, hb3, hb4⟩
  · refine Or.inl ⟨h1, ?_⟩
    rcases h2 with h | h
    · exact Or.inl (h.trans hrc)
    · exact Or.inr h
  · exact Or.inr ⟨bytes, hb1, hb2, hb3, hb4⟩

theorem get_cmdline_not_esrch (d : SdBusCreds) (bytes : List Nat)
    (h1 : d.mask &&& SD_BUS_CREDS_CMDLINE ≠ 0) (h2 : d.cmdline = some bytes) :
    (sd_bus_creds_get_cmdline d).1 ≠ .error Errno.ESRCH := by
  unfold sd_bus_creds_get_cmdline
  rw [if_neg h1, h2]
  split
  · rename_i heq
    exact Option.noConfusion heq
  · split <;> simp

/-- C1: the per-field getter contract fails for `sd_bus_creds_get_gid`.  With
only the GID bit set (gid 7 stored) the getter returns `-ENODATA`, and with
only the UID bit set it returns the gid although the GID bit is unset; the
source tests `SD_BUS_CREDS_UID` instead of `SD_BUS_CREDS_GID` (line 211).  The
sibling uid getter behaves as the claim states. -/
theorem gid_getter_tests_uid_bit :
    sd_bus_creds_get_gid { bus_creds_new with mask := SD_BUS_CREDS_GID, gid := 7 } =
      .error Errno.ENODATA ∧
    sd_bus_creds_get_gid { bus_creds_new with mask := SD_BUS_CREDS_UID, gid := 7 } =
      .ok 7 ∧
    sd_bus_creds_get_uid { bus_creds_new with mask := SD_BUS_CREDS_UID, uid := 5 } =
      .ok 5 ∧
    sd_bus_creds_get_uid { bus_creds_new with mask := SD_BUS_CREDS_GID, uid := 5 } =
      .error Errno.ENODATA := by decide

/-- C3: an augmentation call with tid argument 0 on a set whose TID bit is set
(stored tid 5, stored pid 10) succeeds and leaves the thread id equal to the
pid value 10 — the fallback at line 676 reads `c->pid`, so the stored thread id
5 is overwritten rather than kept. -/
theorem tid_fallback_records_pid :
    (let c0 : SdBusCreds := { bus_creds_new with
        mask := SD_BUS_CREDS_PID ||| SD_BUS_CREDS_TID, pid := 10, tid := 5 }
     let r := bus_creds_add_more c0 (SD_BUS_CREDS_AUGMENT ||| SD_BUS_CREDS_COMM)
       0 0 envPermAll
     c0.tid = 5 ∧ r.1 = none ∧ r.2.tid = 10 ∧ r.2.mask &&& SD_BUS_CREDS_TID ≠ 0) := by
  decide

/-- C5: when no requested bit is missing, or the AUGMENT flag is absent from
the target mask, extend returns the very same object with one reference
acquired — no copy, no new allocation. -/
theorem extend_fast_path_same_object (c : SdBusCreds) (mask : Nat) (env : ProcEnv)
    (h : mask &&& not64 c.mask = 0 ∨ mask &&& SD_BUS_CREDS_AUGMENT = 0) :
    bus_creds_extend_by_pid c mask env = .ok (.same (sd_bus_creds_ref c)) := by
  unfold bus_creds_extend_by_pid
  rw [if_pos h]

theorem extend_fast_path_same_object_witness :
    bus_creds_extend_by_pid { bus_creds_new with mask := SD_BUS_CREDS_PID, pid := 3 }
        SD_BUS_CREDS_PID envPermAll =
      .ok (.same (sd_bus_creds_ref
        { bus_creds_new with mask := SD_BUS_CREDS_PID, pid := 3 })) :=
  extend_fast_path_same_object _ _ _ (Or.inl (by decide))

theorem has_cap_eq (c : SdBusCreds) (b n k : Nat) (hsz : c.capability_size = 4 * b) :
    (8 * b ≤ n → has_cap c k n = 0) ∧
    (n < 8 * b → has_cap c k n = subVecBit c k b n) := by
  have hb : c.capability_size / 4 = b := by
    rw [hsz]
    exact Nat.mul_div_cancel_left b (by norm_num)
  constructor
  · intro h
    simp only [has_cap]
    rw [hb]
    have h' : b * 8 ≤ n := by rw [Nat.mul_comm b 8]; exact h
    rw [if_pos h']
  · intro h
    simp only [has_cap, subVecBit]
    rw [hb]
    have hn8 : ¬ (b * 8 ≤ n) := by rw [Nat.mul_comm b 8]; omega
    rw [if_neg hn8]
    have hdiv : n / 8 < b :=
      (Nat.div_lt_iff_lt_mul (by norm_num : 0 < 8)).mpr (by omega : n < b * 8)
    rw [getD_drop_take _ _ _ _ hdiv]

/-- C7: with `b` bytes stored per category, every capability number at or
beyond `8 * b` queries as 0 (false), not as an error, in all four categories;
below the boundary the result is exactly the stored bit — byte `n / 8`, bit
`n % 8` of the category's sub-vector. -/
theorem caps_query_boundary (c : SdBusCreds) (b n : Nat)
    (hsz : c.capability_size = 4 * b) :
    (8 * b ≤ n →
      (c.mask &&& SD_BUS_CREDS_EFFECTIVE_CAPS ≠ 0 →
        sd_bus_creds_has_effective_cap c n = .ok 0) ∧
      (c.mask &&& SD_BUS_CREDS_PERMITTED_CAPS ≠ 0 →
        sd_bus_creds_has_permitted_cap c n = .ok 0) ∧
      (c.mask &&& SD_BUS_CREDS_INHERITABLE_CAPS ≠ 0 →
        sd_bus_creds_has_inheritable_cap c n = .ok 0) ∧
      (c.mask &&& SD_BUS_CREDS_BOUNDING_CAPS ≠ 0 →
        sd_bus_creds_has_bounding_cap c n = .ok 0)) ∧
    (n < 8 * b →
      (c.mask &&& SD_BUS_CREDS_EFFECTIVE_CAPS ≠ 0 →
        sd_bus_creds_has_effective_cap c n =
          .ok (subVecBit c CAP_OFFSET_EFFECTIVE b n)) ∧
      (c.mask &&& SD_BUS_CREDS_PERMITTED_CAPS ≠ 0 →
        sd_bus_creds_has_permitted_cap c n =
          .ok (subVecBit c CAP_OFFSET_PERMITTED b n)) ∧
      (c.mask &&& SD_BUS_CREDS_INHERITABLE_CAPS ≠ 0 →
        sd_bus_creds_has_inheritable_cap c n =
          .ok (subVecBit c CAP_OFFSET_INHERITABLE b n)) ∧
      (c.mask &&& SD_BUS_CREDS_BOUNDING_CAPS ≠ 0 →
        sd_bus_creds_has_bounding_cap c n =
          .ok (subVecBit c CAP_OFFSET_BOUNDING b n))) := by
  constructor
  · intro h
    refine ⟨fun hbit => ?_, fun hbit => ?_, fun hbit => ?_, fun hbit => ?_⟩
    · unfold sd_bus_creds_has_effective_cap
      rw [if_neg hbit, (has_cap_eq c b n CAP_OFFSET_EFFECTIVE hsz).1 h]
    · unfold sd_bus_creds_has_permitted_cap
      rw [if_neg hbit, (has_cap_eq c b n CAP_OFFSET_PERMITTED hsz).1 h]
    · unfold sd_bus_creds_has_inheritable_cap
      rw [if_neg hbit, (has_cap_eq c b n CAP_OFFSET_INHERITABLE hsz).1 h]
    · unfold sd_bus_creds_has_bounding_cap
      rw [if_neg hbit, (has_cap_eq c b n CAP_OFFSET_BOUNDING hsz).1 h]
  · intro h
    refine ⟨fun hbit => ?_, fun hbit => ?_, fun hbit => ?_, fun hbit => ?_⟩
    · unfold sd_bus_creds_has_effective_cap
      rw [if_neg hbit, (has_cap_eq c b n CAP_OFFSET_EFFECTIVE hsz).2 h]
    · unfold sd_bus_creds_has_permitted_cap
      rw [if_neg hbit, (has_cap_eq c b n CAP_OFFSET_PERMITTED hsz).2 h]
    · unfold sd_bus_creds_has_inheritable_cap
      rw [if_neg hbit, (has_cap_eq c b n CAP_OFFSET_INHERITABLE hsz).2 h]
    · unfold sd_bus_creds_has_bounding_cap
      rw [if_neg hbit, (has_cap_eq c b n CAP_OFFSET_BOUNDING hsz).2 h]

theorem caps_query_boundary_witness :
    sd_bus_creds_has_effective_cap capsCreds 17 = .ok 0 ∧
    sd_bus_creds_has_effective_cap capsCreds 9 =
      .ok (subVecBit capsCreds CAP_OFFSET_EFFECTIVE 2 9) ∧
    sd_bus_creds_has_bounding_cap capsCreds 40 = .ok 0 :=
  ⟨((caps_query_boundary capsCreds 2 17 (by decide)).1 (by decide)).1 (by decide),
   ((caps_query_boundary capsCreds 2 9 (by decide)).2 (by decide)).1 (by decide),
   (((caps_query_boundary capsCreds 2 40 (by decide)).1 (by decide)).2.2.2 (by decide))⟩

/-- C2 counterexample: the owner-uid getter succeeds but caches nothing — the
object it returns is unchanged, and the second call invokes the hierarchical
path collaborator twice again instead of zero times. -/
theorem owner_uid_getter_not_memoized :
    (sd_bus_creds_get_owner_uid cgEnvConst ownerCreds).1 = .ok 42 ∧
    (sd_bus_creds_get_owner_uid cgEnvConst ownerCreds).2.1 = ownerCreds ∧
    (sd_bus_creds_get_owner_uid cgEnvConst
      (sd_bus_creds_get_owner_uid cgEnvConst ownerCreds).2.1).2.2 = 2 :=
  ⟨rfl, rfl, rfl⟩

/-- C2 amended: the unit, user-unit, slice and session getters memoize — after
a first successful call the returned object holds the derived value, and a
second call returns the same value with zero collaborator invocations; the
owner-uid getter instead leaves the object unchanged and re-invokes the
collaborator (twice) on every successful call. -/
theorem derived_getters_memoize (e : CgEnv) (c c1 : SdBusCreds) (v : String)
    (k : Nat) :
    (sd_bus_creds_get_unit e c = (.ok v, c1, k) →
      sd_bus_creds_get_unit e c1 = (.ok v, c1, 0)) ∧
    (sd_bus_creds_get_user_unit e c = (.ok v, c1, k) →
      sd_bus_creds_get_user_unit e c1 = (.ok v, c1, 0)) ∧
    (sd_bus_creds_get_slice e c = (.ok v, c1, k) →
      sd_bus_creds_get_slice e c1 = (.ok v, c1, 0)) ∧
    (sd_bus_creds_get_session e c = (.ok v, c1, k) →
      sd_bus_creds_get_session e c1 = (.ok v, c1, 0)) ∧
    (∀ u : Nat, sd_bus_creds_get_owner_uid e c = (.ok u, c1, k) →
      c1 = c ∧ k = 2) := by
  refine ⟨?_, ?_, ?_, ?_, ?_⟩
  · intro h
    unfold sd_bus_creds_get_unit at h ⊢
    split at h
    · simp at h
    · rename_i hbit
      split at h
      · rename_i u hu
        simp only [Prod.mk.injEq, Except.ok.injEq] at h
        obtain ⟨rfl, rfl, rfl⟩ := h
        simp [hbit, hu]
      · split at h
        · simp at h
        · split at h
          · simp at h
          · rename_i hu shifted hsh u hq
            simp only [Prod.mk.injEq, Except.ok.injEq] at h
            obtain ⟨rfl, rfl, rfl⟩ := h
            simp [hbit]
  · intro h
    unfold sd_bus_creds_get_user_unit at h ⊢
    split at h
    · simp at h
    · rename_i hbit
      split at h
      · rename_i u hu
        simp only [Prod.mk.injEq, Except.ok.injEq] at h
        obtain ⟨rfl, rfl, rfl⟩ := h
        simp [hbit, hu]
      · split at h
        · simp at h
        · split at h
          · simp at h
          · rename_i hu shifted hsh u hq
            simp only [Prod.mk.injEq, Except.ok.injEq] at h
            obtain ⟨rfl, rfl, rfl⟩ := h
            simp [hbit]
  · intro h
    unfold sd_bus_creds_get_slice at h ⊢
    split at h
    · simp at h
    · rename_i hbit
      split at h
      · rename_i u hu
        simp only [Prod.mk.injEq, Except.ok.injEq] at h
        obtain ⟨rfl, rfl, rfl⟩ := h
        simp [hbit, hu]
      · split at h
        · simp at h
        · split at h
          · simp at h
          · rename_i hu shifted hsh u hq
            simp only [Prod.mk.injEq, Except.ok.injEq] at h
            obtain ⟨rfl, rfl, rfl⟩ := h
            simp [hbit]
  · intro h
    unfold sd_bus_creds_get_session at h ⊢
    split at h
    · simp at h
    · rename_i hbit
      split at h
      · rename_i u hu
        simp only [Prod.mk.injEq, Except.ok.injEq] at h
        obtain ⟨rfl, rfl, rfl⟩ := h
        simp [hbit, hu]
      · split at h
        · simp at h
        · split at h
          · simp at h
          · rename_i hu shifted hsh u hq
            simp only [Prod.mk.injEq, Except.ok.injEq] at h
            obtain ⟨rfl, rfl, rfl⟩ := h
            simp [hbit]
  · intro u h
    unfold sd_bus_creds_get_owner_uid at h
    split at h
    · simp at h
    · split at h
      · simp at h
      · simp only [Prod.mk.injEq] at h
        exact ⟨h.2.1.symm, h.2.2.symm⟩

theorem derived_getters_memoize_witness :
    sd_bus_creds_get_unit cgEnvConst { unitCreds with unit := some "u.service" } =
      (.ok "u.service", { unitCreds with unit := some "u.service" }, 0) :=
  (derived_getters_memoize cgEnvConst unitCreds
    { unitCreds with unit := some "u.service" } "u.service" 2).1 rfl

/-- C9: when augmentation needs the status record, a not-found on open is the
distinct hard failure `-ESRCH`; a permission-denied-class failure is not fatal —
the run is identical to one over an empty record (all remaining sources are
still consulted) and no status-record field bit changes. -/
theorem status_open_error_policy (c : SdBusCreds) (mask : Nat) (pid tid : Int)
    (env : ProcEnv) :
    (env.status = .error Errno.ENOENT →
      mask &&& SD_BUS_CREDS_AUGMENT ≠ 0 →
      mask &&& not64 c.mask ≠ 0 →
      ¬ resolvePid c pid ≤ 0 →
      (mask &&& not64 c.mask) &&& statusFieldBits ≠ 0 →
      (bus_creds_add_more c mask pid tid env).1 = some Errno.ESRCH) ∧
    ((env.status = .error Errno.EPERM ∨ env.status = .error Errno.EACCES) →
      bus_creds_add_more c mask pid tid env =
        bus_creds_add_more c mask pid tid { env with status := .ok [] } ∧
      (bus_creds_add_more c mask pid tid env).2.mask &&& statusFieldBits =
        c.mask &&& statusFieldBits) := by
  constructor
  · intro hs haug hmiss hpid hneed
    simp only [bus_creds_add_more]
    rw [if_neg haug, if_neg hmiss, if_neg hpid]
    unfold augmentSteps
    have hss : ∀ d : SdBusCreds,
        statusStep (mask &&& not64 c.mask) env d = (some Errno.ESRCH, d) := by
      intro d
      unfold statusStep
      rw [if_neg hneed, hs]
      simp
    rw [hss, augmentRest_err]
  · intro hs
    have hstep : ∀ (m : Nat) (d : SdBusCreds), statusStep m env d = (none, d) :=
      fun m d => statusStep_perm_skip m env d hs
    have hstep2 : ∀ (m : Nat) (d : SdBusCreds),
        statusStep m { env with status := .ok [] } d = (none, d) :=
      fun m d => statusStep_empty_skip m _ d rfl
    constructor
    · simp only [bus_creds_add_more]
      by_cases h1 : mask &&& SD_BUS_CREDS_AUGMENT = 0
      · rw [if_pos h1, if_pos h1]
      · rw [if_neg h1, if_neg h1]
        by_cases h2 : mask &&& not64 c.mask = 0
        · rw [if_pos h2, if_pos h2]
        · rw [if_neg h2, if_neg h2]
          by_cases h3 : resolvePid c pid ≤ 0
          · rw [if_pos h3, if_pos h3]
          · rw [if_neg h3, if_neg h3]
            unfold augmentSteps
            rw [hstep, hstep2]
            rfl
    · simp only [bus_creds_add_more]
      by_cases h1 : mask &&& SD_BUS_CREDS_AUGMENT = 0
      · rw [if_pos h1]
      · rw [if_neg h1]
        by_cases h2 : mask &&& not64 c.mask = 0
        · rw [if_pos h2]
        · rw [if_neg h2]
          by_cases h3 : resolvePid c pid ≤ 0
          · rw [if_pos h3]
          · rw [if_neg h3]
            unfold augmentSteps
            rw [hstep, augmentRest_from_none]
            exact publishPidTid_mask_and c _ _ _ (by decide) (by decide)

theorem status_open_error_policy_witness :
    (bus_creds_add_more bus_creds_new
        (SD_BUS_CREDS_AUGMENT ||| SD_BUS_CREDS_UID) 1 0
        { envPermAll with status := .error Errno.ENOENT }).1 = some Errno.ESRCH ∧
    (bus_creds_add_more bus_creds_new
        (SD_BUS_CREDS_AUGMENT ||| SD_BUS_CREDS_UID) 1 0 envPermAll =
      bus_creds_add_more bus_creds_new
        (SD_BUS_CREDS_AUGMENT ||| SD_BUS_CREDS_UID) 1 0
        { envPermAll with status := .ok [] } ∧
     (bus_creds_add_more bus_creds_new
        (SD_BUS_CREDS_AUGMENT ||| SD_BUS_CREDS_UID) 1 0 envPermAll).2.mask &&&
        statusFieldBits = bus_creds_new.mask &&& statusFieldBits) :=
  ⟨(status_open_error_policy bus_creds_new _ 1 0 _).1 rfl (by decide) (by decide)
      (by decide) (by decide),
   (status_open_error_policy bus_creds_new _ 1 0 envPermAll).2 (Or.inl rfl)⟩

/-- C10: starting from a set without the command-line bit, augmentation only
publishes the bit together with a nonempty blob (so the getter's non-null
check cannot yield `-ESRCH`), and a zero-byte read leaves the bit unset with
the blob discarded. -/
theorem cmdline_blob_nonempty (c : SdBusCreds) (mask : Nat) (pid tid : Int)
    (env : ProcEnv) (hbit : c.mask &&& SD_BUS_CREDS_CMDLINE = 0) :
    ((bus_creds_add_more c mask pid tid env).2.mask &&& SD_BUS_CREDS_CMDLINE ≠ 0 →
      ∃ bytes, bytes ≠ [] ∧
        (bus_creds_add_more c mask pid tid env).2.cmdline = some bytes ∧
        (sd_bus_creds_get_cmdline (bus_creds_add_more c mask pid tid env).2).1 ≠
          .error Errno.ESRCH) ∧
    (env.cmdline = .ok [] →
      (bus_creds_add_more c mask pid tid env).2.mask &&& SD_BUS_CREDS_CMDLINE = 0 ∧
      ((bus_creds_add_more c mask pid tid env).2.cmdline = c.cmdline ∨
       (bus_creds_add_more c mask pid tid env).2.cmdline = none)) := by
  simp only [bus_creds_add_more]
  by_cases h1 : mask &&& SD_BUS_CREDS_AUGMENT = 0
  · rw [if_pos h1]
    exact ⟨fun h => absurd hbit h, fun _ => ⟨hbit, Or.inl rfl⟩⟩
  · rw [if_neg h1]
    by_cases h2 : mask &&& not64 c.mask = 0
    · rw [if_pos h2]
      exact ⟨fun h => absurd hbit h, fun _ => ⟨hbit, Or.inl rfl⟩⟩
    · rw [if_neg h2]
      by_cases h3 : resolvePid c pid ≤ 0
      · rw [if_pos h3]
        exact ⟨fun h => absurd hbit h, fun _ => ⟨hbit, Or.inl rfl⟩⟩
      · rw [if_neg h3]
        have hc2 : (publishPidTid c (resolvePid c pid) (resolveTid c tid)).mask &&&
            SD_BUS_CREDS_CMDLINE = 0 := by
          rw [publishPidTid_mask_and c _ _ _ (by decide) (by decide)]
          exact hbit
        rcases augmentSteps_cmdline (mask &&& not64 c.mask) (resolveTid c tid) env
            (publishPidTid c (resolvePid c pid) (resolveTid c tid)) hc2 with
          ⟨hm, hcl⟩ | ⟨bytes, hne, henvb, hcm, hmne⟩
        · constructor
          · intro h
            exact absurd hm h
          · intro _
            refine ⟨hm, ?_⟩
            rcases hcl with h | h
            · exact Or.inl (h.trans (publishPidTid_cmdline c _ _))
            · exact Or.inr h
        · constructor
          · intro _
            exact ⟨bytes, hne, hcm, get_cmdline_not_esrch _ bytes hmne hcm⟩
          · intro hok
            rw [hok] at henvb
            injection henvb with hb
            exact absurd hb.symm hne

theorem cmdline_blob_nonempty_witness :
    (∃ bytes, bytes ≠ [] ∧
      (bus_creds_add_more bus_creds_new
        (SD_BUS_CREDS_AUGMENT ||| SD_BUS_CREDS_CMDLINE) 1 0
        { envPermAll with cmdline := .ok [65] }).2.cmdline = some bytes ∧
      (sd_bus_creds_get_cmdline (bus_creds_add_more bus_creds_new
        (SD_BUS_CREDS_AUGMENT ||| SD_BUS_CREDS_CMDLINE) 1 0
        { envPermAll with cmdline := .ok [65] }).2).1 ≠ .error Errno.ESRCH) ∧
    ((bus_creds_add_more bus_creds_new
        (SD_BUS_CREDS_AUGMENT ||| SD_BUS_CREDS_CMDLINE) 1 0
        { envPermAll with cmdline := .ok [] }).2.mask &&& SD_BUS_CREDS_CMDLINE = 0 ∧
     ((bus_creds_add_more bus_creds_new
        (SD_BUS_CREDS_AUGMENT ||| SD_BUS_CREDS_CMDLINE) 1 0
        { envPermAll with cmdline := .ok [] }).2.cmdline = bus_creds_new.cmdline ∨
      (bus_creds_add_more bus_creds_new
        (SD_BUS_CREDS_AUGMENT ||| SD_BUS_CREDS_CMDLINE) 1 0
        { envPermAll with cmdline := .ok [] }).2.cmdline = none)) :=
  ⟨(cmdline_blob_nonempty bus_creds_new _ 1 0 _ (by decide)).1 (by decide),
   (cmdline_blob_nonempty bus_creds_new _ 1 0 _ (by decide)).2 rfl⟩

/-- C8: when the status record is readable, its `Uid:` line parses, and a later
`Groups:` line is malformed, augmentation fails hard with `-EIO` while the four
uid values parsed earlier survive in the returned object and every requested
uid bit is set in its mask. -/
theorem status_uid_survives_groups_eio (c : SdBusCreds) (mask : Nat)
    (pid tid : Int) (env : ProcEnv) (l1 l2 : String) (u1 u2 u3 u4 : Nat)
    (p1 g1 : List Char)
    (henv : env.status = .ok [l1, l2])
    (haug : mask &&& SD_BUS_CREDS_AUGMENT ≠ 0)
    (hmiss : mask &&& not64 c.mask ≠ 0)
    (hpid : ¬ resolvePid c pid ≤ 0)
    (huid : (mask &&& not64 c.mask) &&& uidFieldBits ≠ 0)
    (hsupp : (mask &&& not64 c.mask) &&& SD_BUS_CREDS_SUPPLEMENTARY_GIDS ≠ 0)
    (h1 : startswithL l1.toList uidKey = some p1)
    (h2 : scan4 (p1.dropWhile isWS) = some (u1, u2, u3, u4))
    (h3 : startswithL l2.toList uidKey = none)
    (h4 : startswithL l2.toList gidKey = none)
    (h5 : startswithL l2.toList groupsKey = some g1)
    (h6 : (groupsLoop (g1.length + 1) g1 []).1 = some Errno.EIO) :
    (bus_creds_add_more c mask pid tid env).1 = some Errno.EIO ∧
    (bus_creds_add_more c mask pid tid env).2.uid = u1 % 4294967296 ∧
    (bus_creds_add_more c mask pid tid env).2.euid = u2 % 4294967296 ∧
    (bus_creds_add_more c mask pid tid env).2.suid = u3 % 4294967296 ∧
    (bus_creds_add_more c mask pid tid env).2.fsuid = u4 % 4294967296 ∧
    maskLe ((mask &&& not64 c.mask) &&& uidFieldBits)
      (bus_creds_add_more c mask pid tid env).2.mask := by
  have hneed : (mask &&& not64 c.mask) &&& statusFieldBits ≠ 0 :=
    maskLe_nonzero
      (maskLe_and_mono_right _ (by decide : maskLe uidFieldBits statusFieldBits)) huid
  rcases hgl : groupsLoop (g1.length + 1) g1 [] with ⟨ge, gs⟩
  rw [hgl] at h6
  have h6e : ge = some Errno.EIO := h6
  subst h6e
  simp only [bus_creds_add_more]
  rw [if_neg haug, if_neg hmiss, if_neg hpid]
  unfold augmentSteps
  have hss : ∀ d : SdBusCreds,
      statusStep (mask &&& not64 c.mask) env d =
        processLines (mask &&& not64 c.mask) [l1, l2] d := by
    intro d
    unfold statusStep
    rw [if_neg hneed, henv]
  have hl1 : ∀ d : SdBusCreds,
      processLine (mask &&& not64 c.mask) d l1 =
        (none, { d with uid := u1 % 4294967296, euid := u2 % 4294967296,
                        suid := u3 % 4294967296, fsuid := u4 % 4294967296,
                        mask := d.mask ||| ((mask &&& not64 c.mask) &&& uidFieldBits) }) := by
    intro d
    simp only [processLine]
    rw [if_pos huid, h1]
    simp only [h2]
  have hl2 : ∀ d : SdBusCreds,
      processLine (mask &&& not64 c.mask) d l2 =
        (some Errno.EIO,
          { d with supplementary_gids := d.supplementary_gids ++ gs }) := by
    intro d
    simp only [processLine]
    rw [if_pos huid, h3]
    by_cases hg : (mask &&& not64 c.mask) &&& gidFieldBits ≠ 0
    · rw [if_pos hg, h4, if_pos hsupp, h5]
      simp only [hgl]
    · rw [if_neg hg, if_pos hsupp, h5]
      simp only [hgl]
  rw [hss]
  simp only [processLines]
  rw [hl1]
  simp only [processLines]
  rw [hl2]
  rw [augmentRest_err]
  refine ⟨rfl, rfl, rfl, rfl, rfl, ?_⟩
  exact maskLe_or_right _ (maskLe_refl _)

theorem status_uid_survives_groups_eio_witness :
    (bus_creds_add_more bus_creds_new
        (SD_BUS_CREDS_AUGMENT ||| SD_BUS_CREDS_UID ||| SD_BUS_CREDS_SUPPLEMENTARY_GIDS)
        1 0 envUidGroups).1 = some Errno.EIO ∧
    (bus_creds_add_more bus_creds_new
        (SD_BUS_CREDS_AUGMENT ||| SD_BUS_CREDS_UID ||| SD_BUS_CREDS_SUPPLEMENTARY_GIDS)
        1 0 envUidGroups).2.uid = 1 % 4294967296 ∧
    (bus_creds_add_more bus_creds_new
        (SD_BUS_CREDS_AUGMENT ||| SD_BUS_CREDS_UID ||| SD_BUS_CREDS_SUPPLEMENTARY_GIDS)
        1 0 envUidGroups).2.euid = 2 % 4294967296 ∧
    (bus_creds_add_more bus_creds_new
        (SD_BUS_CREDS_AUGMENT ||| SD_BUS_CREDS_UID ||| SD_BUS_CREDS_SUPPLEMENTARY_GIDS)
        1 0 envUidGroups).2.suid = 3 % 4294967296 ∧
    (bus_creds_add_more bus_creds_new
        (SD_BUS_CREDS_AUGMENT ||| SD_BUS_CREDS_UID ||| SD_BUS_CREDS_SUPPLEMENTARY_GIDS)
        1 0 envUidGroups).2.fsuid = 4 % 4294967296 ∧
    maskLe (((SD_BUS_CREDS_AUGMENT ||| SD_BUS_CREDS_UID |||
        SD_BUS_CREDS_SUPPLEMENTARY_GIDS) &&& not64 bus_creds_new.mask) &&& uidFieldBits)
      (bus_creds_add_more bus_creds_new
        (SD_BUS_CREDS_AUGMENT ||| SD_BUS_CREDS_UID ||| SD_BUS_CREDS_SUPPLEMENTARY_GIDS)
        1 0 envUidGroups).2.mask :=
  status_uid_survives_groups_eio bus_creds_new _ 1 0 envUidGroups
    "Uid:\t1 2 3 4" "Groups:\tx" 1 2 3 4 "\t1 2 3 4".toList "\tx".toList
    rfl (by decide) (by decide) (by decide) (by decide) (by decide)
    (by decide) (by decide) (by decide) (by decide) (by decide) (by decide)

/-- C4 counterexample: a successful extend that requested the security-label
field leaves it absent although no collaborator reported a permission-denied
error — the label read failed with `-ENOENT`, a skip the claim does not allow. -/
theorem extend_skip_without_permission_denied :
    extendIsFresh (bus_creds_extend_by_pid extendBase
      (SD_BUS_CREDS_AUGMENT ||| SD_BUS_CREDS_PID ||| SD_BUS_CREDS_SELINUX_CONTEXT)
      envNoPerm) = true ∧
    (SD_BUS_CREDS_AUGMENT ||| SD_BUS_CREDS_PID ||| SD_BUS_CREDS_SELINUX_CONTEXT) &&&
      SD_BUS_CREDS_SELINUX_CONTEXT ≠ 0 ∧
    extendBase.mask &&& SD_BUS_CREDS_SELINUX_CONTEXT = 0 ∧
    extendMaskOf (bus_creds_extend_by_pid extendBase
      (SD_BUS_CREDS_AUGMENT ||| SD_BUS_CREDS_PID ||| SD_BUS_CREDS_SELINUX_CONTEXT)
      envNoPerm) &&& SD_BUS_CREDS_SELINUX_CONTEXT = 0 ∧
    envNoPermDenied envNoPerm := by
  decide

/-- C4 amended: a successful extend never drops a field bit that was present in
the original mask and requested in the target mask — the result's mask is a
superset of their intersection.  (A requested new field may still be absent
after a skip, which the counterexample shows is not limited to
permission-denied errors.) -/
theorem extend_mask_monotone (c : SdBusCreds) (mask : Nat) (env : ProcEnv)
    (r : ExtendResult) (h : bus_creds_extend_by_pid c mask env = .ok r) :
    maskLe (c.mask &&& mask &&& allFieldBits)
      (extendMaskOf (bus_creds_extend_by_pid c mask env)) := by
  rw [h]
  simp only [bus_creds_extend_by_pid] at h
  by_cases hfast : mask &&& not64 c.mask = 0 ∨ mask &&& SD_BUS_CREDS_AUGMENT = 0
  · rw [if_pos hfast] at h
    injection h with h2
    subst h2
    rw [show extendMaskOf (Except.ok (ExtendResult.same (sd_bus_creds_ref c))) =
        (sd_bus_creds_ref c).mask from rfl, sd_bus_creds_ref_mask]
    exact maskLe_trans (maskLe_and_left _ _) (maskLe_and_left _ _)
  · rw [if_neg hfast] at h
    rcases hadd : bus_creds_add_more (credsCopy c mask) mask
        (if c.mask &&& SD_BUS_CREDS_PID ≠ 0 then c.pid else 0)
        (if c.mask &&& SD_BUS_CREDS_TID ≠ 0 then c.tid else 0) env with ⟨err, n1⟩
    rw [hadd] at h
    cases err with
    | some e => simp at h
    | none =>
      simp only [] at h
      injection h with h2
      subst h2
      have hg := bus_creds_add_more_grows (credsCopy c mask) mask
        (if c.mask &&& SD_BUS_CREDS_PID ≠ 0 then c.pid else 0)
        (if c.mask &&& SD_BUS_CREDS_TID ≠ 0 then c.tid else 0) env
      rw [hadd] at hg
      exact maskLe_trans (credsCopy_covers c mask) hg

theorem extend_mask_monotone_witness :
    maskLe (extendBase.mask &&& (SD_BUS_CREDS_AUGMENT ||| SD_BUS_CREDS_PID) &&&
        allFieldBits)
      (extendMaskOf (bus_creds_extend_by_pid extendBase
        (SD_BUS_CREDS_AUGMENT ||| SD_BUS_CREDS_PID) envPermAll)) :=
  extend_mask_monotone extendBase _ envPermAll extendWitRes (by decide)

theorem lowerHex_facts (ch : Char) (h : ch ∈ lowerHexDigits) :
    unhexchar ch = some (hexVal ch) ∧ hexVal ch < 16 ∧ hexchar (hexVal ch) = ch ∧
    isWS ch = false := by
  simp only [lowerHexDigits, List.mem_append] at h
  rcases h with (h | h) | h <;> fin_cases h <;> decide

theorem shiftOr16 (x y : Nat) (hx : x < 16) (hy : y < 16) :
    (x <<< 4 ||| y) = 16 * x + y := by
  have h : ∀ a ∈ Finset.range 16, ∀ b ∈ Finset.range 16,
      ((a <<< 4) ||| b) = 16 * a + b := by decide
  exact h x (Finset.mem_range.mpr hx) y (Finset.mem_range.mpr hy)

theorem getD_mem (l : List Char) (k : Nat) (d : Char) (h : k < l.length) :
    l.getD k d ∈ l := by
  rw [List.getD_eq_getElem?_getD, List.getElem?_eq_getElem h]
  exact List.getElem_mem h

theorem pairList_length (q : List Char) : (pairList q).length = q.length / 2 := by
  match q with
  | [] => rfl
  | [c] => simp [pairList]
  | c1 :: c2 :: rest =>
    simp only [pairList, List.length_cons, pairList_length rest]
    omega

theorem pairList_getD (q : List Char) (j : Nat) (h : j * 2 + 1 < q.length) :
    (pairList q).getD j 0 =
      (hexVal (q.getD (j * 2) ' ')) <<< 4 ||| hexVal (q.getD (j * 2 + 1) ' ') := by
  match q, j with
  | [], j => simp at h
  | [c], j =>
    simp only [List.length_cons, List.length_nil] at h
    omega
  | c1 :: c2 :: rest, 0 => rfl
  | c1 :: c2 :: rest, j + 1 =>
    have h' : j * 2 + 1 < rest.length := by
      simp only [List.length_cons] at h
      omega
    have heq : (j + 1) * 2 = j * 2 + 2 := by omega
    simp only [pairList, heq, List.getD_cons_succ]
    exact pairList_getD rest j h'

theorem encode_pairList : ∀ (s : List Char),
    (∀ ch ∈ s, ch ∈ lowerHexDigits) → s.length % 2 = 0 →
    ((pairList s).map fun b => [hexchar (b / 16), hexchar (b % 16)]).flatten = s
  | [], _, _ => rfl
  | [c], _, hlen => by simp at hlen
  | c1 :: c2 :: rest, hhex, hlen => by
    have h1 := lowerHex_facts c1 (hhex c1 (by simp))
    have h2 := lowerHex_facts c2 (hhex c2 (by simp))
    have ih := encode_pairList rest (fun ch hch => hhex ch (by simp [hch]))
      (by simp only [List.length_cons] at hlen ⊢; omega)
    simp only [pairList, List.map_cons, List.flatten_cons]
    rw [shiftOr16 _ _ h1.2.1 h2.2.1]
    have hdiv : (16 * hexVal c1 + hexVal c2) / 16 = hexVal c1 := by
      have := h2.2.1
      omega
    have hmod : (16 * hexVal c1 + hexVal c2) % 16 = hexVal c2 := by
      have := h2.2.1
      omega
    rw [hdiv, hmod, h1.2.2.1, h2.2.2.1, ih]
    rfl

theorem getD_set_self (l : List Nat) (p x : Nat) (h : p < l.length) :
    (l.set p x).getD p 0 = x := by
  rw [List.getD_eq_getElem?_getD, List.getElem?_set]
  simp [h]

theorem getD_set_other (l : List Nat) (p t x : Nat) (h : p ≠ t) :
    (l.set p x).getD t 0 = l.getD t 0 := by
  rw [List.getD_eq_getElem?_getD, List.getElem?_set, if_neg h,
    ← List.getD_eq_getElem?_getD]

/-- Characterization of the `parse_caps` byte loop on a lowercase-hex string:
it succeeds, preserves the vector length, and fills the region
`[off * sz, off * sz + (sz - i))` with the parsed bytes in reversed order,
leaving every other byte unchanged. -/
theorem parseCapsFrom_spec (q : List Char) (sz off : Nat)
    (hq : ∀ ch ∈ q, ch ∈ lowerHexDigits) (hlen : q.length = 2 * sz)
    (hoff : off < 4) :
    ∀ (rem i : Nat) (v : List Nat), i + rem = sz → v.length = sz * 4 →
      (parseCapsFrom q sz off i rem v).1 = none ∧
      (parseCapsFrom q sz off i rem v).2.length = sz * 4 ∧
      (∀ t, (parseCapsFrom q sz off i rem v).2.getD t 0 =
        if off * sz ≤ t ∧ t < off * sz + (sz - i) then
          (pairList q).getD (off * sz + sz - 1 - t) 0
        else v.getD t 0) := by
  intro rem
  induction rem with
  | zero =>
    intro i v hi hv
    refine ⟨rfl, hv, ?_⟩
    intro t
    rw [if_neg (by omega)]
    rfl
  | succ rem ih =>
    intro i v hi hv
    have hoff3 : off * sz ≤ 3 * sz := Nat.mul_le_mul_right sz (by omega)
    have hc1 : q.getD (i * 2) ' ' ∈ q := getD_mem _ _ _ (by omega)
    have hc2 : q.getD (i * 2 + 1) ' ' ∈ q := getD_mem _ _ _ (by omega)
    have f1 := lowerHex_facts _ (hq _ hc1)
    have f2 := lowerHex_facts _ (hq _ hc2)
    simp only [parseCapsFrom, f1.1, f2.1]
    set p := off * sz + (sz - i - 1) with hp
    set w := (hexVal (q.getD (i * 2) ' ')) <<< 4 ||| hexVal (q.getD (i * 2 + 1) ' ')
      with hw
    have hrec := ih (i + 1) (v.set p w) (by omega) (by rw [List.length_set]; exact hv)
    refine ⟨hrec.1, hrec.2.1, ?_⟩
    intro t
    rw [hrec.2.2 t]
    by_cases hin : off * sz ≤ t ∧ t < off * sz + (sz - (i + 1))
    · rw [if_pos hin, if_pos (by omega)]
    · rw [if_neg hin]
      by_cases hteq : t = p
      · subst hteq
        rw [if_pos (by omega), getD_set_self _ _ _ (by omega)]
        have hidx : off * sz + sz - 1 - p = i := by omega
        rw [hidx, pairList_getD q i (by omega)]
      · rw [if_neg (by omega), getD_set_other _ _ _ _ (fun he => hteq he.symm)]

theorem dropWhile_hex (s : List Char) (hhex : ∀ ch ∈ s, ch ∈ lowerHexDigits) :
    s.dropWhile isWS = s := by
  match s with
  | [] => rfl
  | ch :: rest =>
    rw [List.dropWhile_cons, (lowerHex_facts ch (hhex ch (by simp))).2.2.2]
    simp

theorem getD_eq_getElem (l : List Nat) (i : Nat) (h : i < l.length) :
    l.getD i 0 = l[i] := by
  rw [List.getD_eq_getElem?_getD, List.getElem?_eq_getElem h]
  rfl

theorem getD_reverse (l : List Nat) (t : Nat) (h : t < l.length) :
    l.reverse.getD t 0 = l.getD (l.length - 1 - t) 0 := by
  have h2 : t < l.reverse.length := by rw [List.length_reverse]; exact h
  rw [getD_eq_getElem _ _ h2, getD_eq_getElem _ _ (by omega)]
  exact List.getElem_reverse h2

/-- C6 amended: for every even-length string of lowercase hex digits (no
leading whitespace), decoding into a fresh credential set succeeds, the
category's sub-vector holds the parsed bytes in reversed order (the last pair
lands at relative offset 0), and re-encoding that sub-vector through the same
pairing-and-reversal rule reproduces the string exactly.  (For uppercase input
decoding also succeeds, but re-encoding yields the lowercase form — see the
counterexample.) -/
theorem caps_decode_roundtrip (s : List Char) (off sz : Nat) (hoff : off < 4)
    (hsz : s.length = 2 * sz) (hhex : ∀ ch ∈ s, ch ∈ lowerHexDigits) :
    (parse_caps bus_creds_new off s).1 = none ∧
    (((parse_caps bus_creds_new off s).2.capability.getD []).drop
        (off * sz)).take sz = (pairList s).reverse ∧
    encode_caps ((((parse_caps bus_creds_new off s).2.capability.getD []).drop
        (off * sz)).take sz) = s := by
  have hdrop : s.dropWhile isWS = s := dropWhile_hex s hhex
  have hdiv : s.length / 2 = sz := by omega
  have hoff3 : off * sz ≤ 3 * sz := Nat.mul_le_mul_right sz (by omega)
  have hspec := parseCapsFrom_spec s sz off hhex hsz hoff sz 0
    (List.replicate (sz * 4) 0) (by omega) (by rw [List.length_replicate])
  rcases hloop : parseCapsFrom s sz off 0 sz (List.replicate (sz * 4) 0) with ⟨e, v⟩
  rw [hloop] at hspec
  have he : e = none := hspec.1
  subst he
  have hvlen : v.length = sz * 4 := hspec.2.1
  have hgetD : ∀ t, v.getD t 0 =
      if off * sz ≤ t ∧ t < off * sz + (sz - 0) then
        (pairList s).getD (off * sz + sz - 1 - t) 0
      else (List.replicate (sz * 4) 0).getD t 0 := hspec.2.2
  have hpc : parse_caps bus_creds_new off s =
      (none, { bus_creds_new with
                 capability := some v, capability_size := sz * 4 }) := by
    simp only [parse_caps, hdrop, hdiv, bus_creds_new, Option.getD_some]
    rw [if_neg (by omega), hloop]
  rw [hpc]
  have hsub : (v.drop (off * sz)).take sz = (pairList s).reverse := by
    have hplen : (pairList s).length = sz := by rw [pairList_length, hdiv]
    apply List.ext_getElem
    · rw [List.length_take, List.length_drop, List.length_reverse, hplen, hvlen]
      omega
    · intro i h1 h2
      have hi : i < sz := by
        rw [List.length_take, List.length_drop] at h1
        omega
      rw [← getD_eq_getElem _ _ h1, ← getD_eq_getElem _ _ h2,
        getD_drop_take v (off * sz) sz i hi, hgetD (off * sz + i),
        if_pos (by omega)]
      have hidx : off * sz + sz - 1 - (off * sz + i) = sz - 1 - i := by omega
      rw [hidx, getD_reverse _ _ (by omega), hplen]
  refine ⟨rfl, hsub, ?_⟩
  show encode_caps ((v.drop (off * sz)).take sz) = s
  rw [hsub]
  unfold encode_caps
  rw [List.reverse_reverse]
  exact encode_pairList s hhex (by omega)

/-- C6 counterexample: "AB" is an even-length string of valid hex digits and
decodes fine, but re-encoding the decoded byte through the pairing-and-reversal
rule yields "ab", not "AB" — the round-trip is not exact on uppercase input. -/
theorem caps_roundtrip_case_sensitive :
    (parse_caps bus_creds_new 0 "AB".toList).1 = none ∧
    encode_caps ((((parse_caps bus_creds_new 0 "AB".toList).2.capability.getD
      []).drop 0).take 1) = "ab".toList ∧
    encode_caps ((((parse_caps bus_creds_new 0 "AB".toList).2.capability.getD
      []).drop 0).take 1) ≠ "AB".toList := by
  decide

theorem caps_decode_roundtrip_witness :
    (parse_caps bus_creds_new 2 "0a1f".toList).1 = none ∧
    (((parse_caps bus_creds_new 2 "0a1f".toList).2.capability.getD []).drop
      (2 * 2)).take 2 = (pairList "0a1f".toList).reverse ∧
    encode_caps ((((parse_caps bus_creds_new 2 "0a1f".toList).2.capability.getD
      []).drop (2 * 2)).take 2) = "0a1f".toList :=
  caps_decode_roundtrip "0a1f".toList 2 2 (by decide) (by decide) (by decide)
